import Mathlib

/-!
# Resource adapters of the Octopus Deploy Terraform provider

A shallow embedding of `src/octopusdeploy/resource_variable.go`,
`resource_lifecycle.go`, `resource_project_deployment_target_trigger.go` and
`resource_azure_service_principal.go`.

* `*schema.ResourceData` is the record `ResourceData`: the tracked identifier
  plus one value per schema attribute. Every adapter function that receives
  the pointer `d` takes a `ResourceData` and, when it writes, returns the new one.
* The remote API client (`*client.Client`) is a record of functions giving the
  answer of every endpoint. Each adapter operation calls at most one endpoint
  that changes remote state, so the answers are all an operation observes.
* An operation returns an `Outcome`: the resource data after the call, the
  diagnostics (`none` is Go's `nil`), and the trace of the calls it made to the
  mutex and to the client, in order.
* Go `string` is `String`, Go `int` is `Int`, `int32(x)` is `toInt32`.
-/

set_option linter.dupNamespace false

namespace OctopusDeploy

/-! ## Schema attribute names and values -/

/-- Attribute-name constants (`constName`, `constProjectID`, ...) used by the
four adapters. They are declared outside the translated files; the embedding
takes them to be pairwise distinct names. -/
inductive Key
  | constProjectID | constName | constType | constValue | constSensitiveValue
  | constDescription | constScope | constIsSensitive | constPrompt | constLabel
  | constRequired | constPGPKey | constKeyFingerprint | constEncryptedValue
  | constReleaseRetentionPolicy | constTentacleRetentionPolicy | constPhase
  | constUnit | constQuantityToKeep | constMinimumEnvironmentsBeforePromotion
  | constIsOptionalPhase | constAutomaticDeploymentTargets
  | constOptionalDeploymentTargets | constShouldRedeploy | constEventGroups
  | constEventCategories | constRoles | constEnvironmentIDs | constClientID
  | constTenantID | constSubscriptionNumber | constKey | constAzureEnvironment
  | constResourceManagementEndpointBaseURI | constActiveDirectoryEndpointBaseURI
  | constEnvironments | constTenantedDeploymentParticipation | constTenantTags
  | constTenants
  deriving DecidableEq, Repr

/-- The constant `constEmptyString`. -/
def constEmptyString : String := ""

/-- A `uuid.UUID` of the `github.com/google/uuid` package, kept as its text. -/
structure UUID where
  text : String
  deriving DecidableEq, Repr

/-- A `model.SensitiveValue` as built by `model.NewSensitiveValue`. -/
structure SensitiveValue where
  NewValue : String
  deriving DecidableEq, Repr

/-- A value held by a schema attribute (Go `interface{}`): `null` is `nil`,
`strs` a `TypeList` of strings, `blocks` a `TypeSet` or `TypeList` of nested
resources, each a `map[string]interface{}` kept as an association list.
`uuid` and `sensitive` are the pointer values the Azure account read passes to
`d.Set`. -/
inductive Value
  | null
  | str (s : String)
  | bool (b : Bool)
  | int (n : Int)
  | strs (xs : List String)
  | blocks (bs : List (List (Key × Value)))
  | uuid (u : Option UUID)
  | sensitive (v : Option SensitiveValue)

namespace Value

/-- The type assertion `.(string)`; a schema-typed string attribute that is
unset reads as the zero value. -/
def asString : Value → String
  | str s => s
  | _ => ""

/-- The type assertion `.(bool)`. -/
def asBool : Value → Bool
  | bool b => b
  | _ => false

/-- The type assertion `.(int)`. -/
def asInt : Value → Int
  | int n => n
  | _ => 0

/-- The elements of `attr.(*schema.Set).List()` and of `attr.([]interface{})`
for a collection of nested resources. -/
def asBlocks : Value → List (List (Key × Value))
  | blocks bs => bs
  | _ => []

/-- Whether the value is the zero value of its type, which is what makes
`GetOk` answer `ok = false`. -/
def isZero : Value → Bool
  | null => true
  | str s => s == ""
  | bool b => !b
  | int n => n == 0
  | strs xs => xs.isEmpty
  | blocks bs => bs.isEmpty
  | uuid u => u.isNone
  | sensitive v => v.isNone

end Value

/-- Indexing a `map[string]interface{}`: `m[key]`, `nil` when absent. -/
def mapIndex (m : List (Key × Value)) (k : Key) : Value :=
  match m.find? (fun kv => kv.1 == k) with
  | some kv => kv.2
  | none => Value.null

/-- The `*schema.ResourceData` handed to every operation. -/
structure ResourceData where
  id : String
  attrs : Key → Value

namespace ResourceData

/-- `d.Id()`. -/
def Id (d : ResourceData) : String := d.id

/-- `d.SetId(v)`. -/
def SetId (d : ResourceData) (v : String) : ResourceData := { d with id := v }

/-- `d.Get(key)`. -/
def Get (d : ResourceData) (k : Key) : Value := d.attrs k

/-- `d.GetOk(key)`: the value and whether it is set to a non-zero value. -/
def GetOk (d : ResourceData) (k : Key) : Value × Bool :=
  (d.attrs k, !(d.attrs k).isZero)

/-- `d.Set(key, value)`. -/
def Set (d : ResourceData) (k : Key) (v : Value) : ResourceData :=
  { d with attrs := Function.update d.attrs k v }

end ResourceData

/-! ## Errors and diagnostics -/

/-- The message constants passed to `createResourceOperationError`
(`errorCreatingVariable`, ...); they name the operation kind. -/
inductive ErrorKind
  | errorCreatingVariable | errorReadingVariable | errorUpdatingVariable
  | errorDeletingVariable
  | errorCreatingLifecycle | errorReadingLifecycle | errorUpdatingLifecycle
  | errorDeletingLifecycle
  | errorCreatingProjectTrigger | errorReadingProjectTrigger
  | errorUpdatingProjectTrigger | errorDeletingProjectTrigger
  | errorCreatingAzureServicePrincipal | errorReadingAzureServicePrincipal
  | errorUpdatingAzureServicePrincipal
  deriving DecidableEq, Repr

/-- A Go `error` value: one handed back by a collaborator (`external`), one
made by `fmt.Errorf` (`Errorf`), or one made by
`createResourceOperationError` (`resourceOperation`). -/
inductive GoError
  | external (msg : String)
  | Errorf (msg : String)
  | resourceOperation (kind : ErrorKind) (nameOrID : String) (cause : GoError)
  deriving DecidableEq, Repr

/-- Modelled from the spec: `createResourceOperationError`, declared outside
the translated files. The spec says a remote operation error is "wrapped with
context (operation kind, resource name/identifier)": the result keeps the
kind, the name or identifier, and the wrapped error. -/
def createResourceOperationError (baseError : ErrorKind) (name : String)
    (err : GoError) : GoError :=
  GoError.resourceOperation baseError name err

/-- A non-nil `diag.Diagnostics`, by the function that built it:
`diag.FromErr(err)` or `diag.Errorf(...)` with the formatted message. -/
inductive Diagnostic
  | FromErr (err : GoError)
  | Errorf (summary : String)
  deriving DecidableEq, Repr

/-! ## The variable record and the client's variable service -/

/-- Modelled from the spec: the `model.VariableScope` record of the client
library, with the dimensions the spec lists for a Scope Model ("EnvironmentIDs,
MachineIDs, Roles, Actions, Channels, TenantTags, ProcessNames"). -/
structure VariableScope where
  EnvironmentIDs : List String := []
  MachineIDs : List String := []
  Roles : List String := []
  Actions : List String := []
  Channels : List String := []
  TenantTags : List String := []
  ProcessNames : List String := []
  deriving DecidableEq, Repr

/-- The `model.VariablePromptOptions` record. -/
structure VariablePromptOptions where
  Description : String
  Label : String
  Required : Bool
  deriving DecidableEq, Repr

/-- The `model.Variable` record (field `Type` is written `Type_`). -/
structure Variable where
  ID : String
  Name : String
  Type_ : String
  Value : String
  Description : String
  Scope : VariableScope
  IsSensitive : Bool
  Prompt : Option VariablePromptOptions
  deriving DecidableEq, Repr

/-- The constructor `model.NewVariable(name, valuetype, value, description,
scope, sensitive)`. -/
def NewVariable (name valuetype value description : String)
    (scope : VariableScope) (sensitive : Bool) : Variable :=
  { ID := "", Name := name, Type_ := valuetype, Value := value,
    Description := description, Scope := scope, IsSensitive := sensitive,
    Prompt := none }

/-- The `model.Variables` aggregate returned by the variable endpoints. -/
structure Variables where
  Variables : List Variable
  deriving DecidableEq, Repr

/-- The client's `Variables` service. An endpoint answers `(value, err)`:
`Except.error err` when `err != nil`. `GetByID` may answer `(nil, nil)`, which
is `Except.ok none`. `MatchesScope` answers `(bool, _, error)`; its second
component is never read by the adapters, and the update loop reads the
boolean without looking at the error, so both are kept. -/
structure VariableService where
  GetByID : String → String → Except GoError (Option Variable)
  AddSingle : String → Variable → Except GoError Variables
  UpdateSingle : String → Variable → Except GoError Variables
  DeleteSingle : String → String → Except GoError Variables
  MatchesScope : VariableScope → VariableScope → Bool × Option GoError

/-! ## Lifecycle, project trigger and account records -/

/-- The `model.RetentionPeriod` record; `QuantityToKeep` is an `int32`. -/
structure RetentionPeriod where
  Unit : String
  QuantityToKeep : Int
  deriving DecidableEq, Repr

/-- The `model.Phase` record. A `[]string` that may be `nil` is an
`Option (List String)`, `none` being the nil slice. -/
structure Phase where
  Name : String
  MinimumEnvironmentsBeforePromotion : Int
  IsOptionalPhase : Bool
  AutomaticDeploymentTargets : Option (List String)
  OptionalDeploymentTargets : Option (List String)
  deriving DecidableEq, Repr

/-- The `model.Lifecycle` record. -/
structure Lifecycle where
  ID : String
  Name : String
  Description : String
  ReleaseRetentionPolicy : RetentionPeriod
  TentacleRetentionPolicy : RetentionPeriod
  Phases : List Phase
  deriving DecidableEq, Repr

/-- The `Action` part of a `model.ProjectTrigger`. -/
structure ProjectTriggerAction where
  ShouldRedeployWhenMachineHasBeenDeployedTo : Bool
  deriving DecidableEq, Repr

/-- The `Filter` part of a `model.ProjectTrigger`. -/
structure ProjectTriggerFilter where
  EventGroups : Option (List String)
  EventCategories : Option (List String)
  Roles : Option (List String)
  EnvironmentIDs : Option (List String)
  deriving DecidableEq, Repr

/-- The `model.ProjectTrigger` record. -/
structure ProjectTrigger where
  ID : String
  Name : String
  ProjectID : String
  Action : ProjectTriggerAction
  Filter : ProjectTriggerFilter
  deriving DecidableEq, Repr

/-- Appending a possibly nil slice to a possibly nil slice with Go's `append`,
one element at a time: nothing appended leaves the slice as it was. -/
def appendSlice (xs ys : Option (List String)) : Option (List String) :=
  match ys.getD [] with
  | [] => xs
  | y :: rest => some (xs.getD [] ++ y :: rest)

/-- The constructor `model.NewProjectDeploymentTargetTrigger(name, projectID,
shouldRedeploy, roles, eventGroups, eventCategories)`. -/
def NewProjectDeploymentTargetTrigger (name projectID : String)
    (shouldRedeploy : Bool) (roles eventGroups eventCategories : Option (List String)) :
    ProjectTrigger :=
  { ID := "", Name := name, ProjectID := projectID,
    Action := { ShouldRedeployWhenMachineHasBeenDeployedTo := shouldRedeploy },
    Filter := { EventGroups := eventGroups, EventCategories := eventCategories,
                Roles := roles, EnvironmentIDs := none } }

/-- The method `(*ProjectTrigger).AddEventGroups`. -/
def ProjectTrigger.AddEventGroups (t : ProjectTrigger) (eventGroups : Option (List String)) :
    ProjectTrigger :=
  { t with Filter := { t.Filter with EventGroups := appendSlice t.Filter.EventGroups eventGroups } }

/-- The method `(*ProjectTrigger).AddEventCategories`. -/
def ProjectTrigger.AddEventCategories (t : ProjectTrigger)
    (eventCategories : Option (List String)) : ProjectTrigger :=
  { t with Filter :=
      { t.Filter with EventCategories := appendSlice t.Filter.EventCategories eventCategories } }

/-- An `enum.TenantedDeploymentMode`, kept as the text its `String()` gives. -/
structure TenantedDeploymentMode where
  text : String
  deriving DecidableEq, Repr

/-- The method `TenantedDeploymentMode.String()`. -/
def TenantedDeploymentMode.String (t : TenantedDeploymentMode) : String := t.text

/-- The `model.Account` record, with the fields the Azure adapter touches. -/
structure Account where
  ID : String
  Name : String
  Description : String
  EnvironmentIDs : Option (List String)
  TenantedDeploymentParticipation : TenantedDeploymentMode
  TenantTags : Option (List String)
  TenantIDs : Option (List String)
  ApplicationID : Option UUID
  SubscriptionID : Option UUID
  TenantID : Option UUID
  Password : Option SensitiveValue
  AzureEnvironment : String
  ResourceManagementEndpointBase : String
  ActiveDirectoryEndpointBase : String
  deriving DecidableEq, Repr

/-- The constructor `model.NewSensitiveValue`. -/
def NewSensitiveValue (newValue : String) : SensitiveValue := { NewValue := newValue }

/-- A possibly nil `[]string` as the value `d.Set` receives. -/
def sliceValue : Option (List String) → Value
  | some xs => Value.strs xs
  | none => Value.null

/-! ## The client, the other collaborators, and outcomes -/

/-- The client's `Lifecycles` service. -/
structure LifecycleService where
  Add : Lifecycle → Except GoError Lifecycle
  GetByID : String → Except GoError (Option Lifecycle)
  Update : Lifecycle → Except GoError Lifecycle
  DeleteByID : String → Option GoError

/-- The client's `ProjectTriggers` service. -/
structure ProjectTriggerService where
  Add : ProjectTrigger → Except GoError ProjectTrigger
  GetByID : String → Except GoError (Option ProjectTrigger)
  Update : ProjectTrigger → Except GoError ProjectTrigger
  DeleteByID : String → Option GoError

/-- The client's `Accounts` service. -/
structure AccountService where
  Add : Account → Except GoError Account
  GetByID : String → Except GoError (Option Account)
  Update : Account → Except GoError Account

/-- The `*client.Client` every operation receives as `m`. -/
structure Client where
  Variables : VariableService
  Lifecycles : LifecycleService
  ProjectTriggers : ProjectTriggerService
  Accounts : AccountService

/-- Functions the translated files call but do not declare: helpers of this
package kept in other files (`tfVariableScopetoODVariableScope`, `isEmpty`,
`getSliceFromTerraformTypeList`, `validateAllSliceItemsInSlice`) and functions
of the client and uuid libraries that can fail (`model.NewLifecycle`,
`uuid.Parse`, `model.NewAzureServicePrincipalAccount`, `Account.Validate`,
`enum.ParseTenantedDeploymentMode`). The helpers `diagValidate`, `logResource`
and `log.Println` only log and return nothing; they are left out. -/
structure Externals where
  tfVariableScopetoODVariableScope : ResourceData → VariableScope
  isEmpty : String → Bool
  getSliceFromTerraformTypeList : Value → Option (List String)
  validateAllSliceItemsInSlice : Option (List String) → List String → String × Bool
  NewLifecycle : String → Except GoError Lifecycle
  uuidParse : String → Except GoError UUID
  NewAzureServicePrincipalAccount :
    String → UUID → UUID → UUID → SensitiveValue → Except GoError Account
  AccountValidate : Account → Option GoError
  ParseTenantedDeploymentMode : String → TenantedDeploymentMode × Option GoError

/-- One observable step of an operation: taking or releasing the package-level
`mutex`, or a call of a client method with its arguments. -/
inductive Event
  | mutexLock
  | mutexUnlock
  | VariablesGetByID (projectID id : String)
  | VariablesAddSingle (projectID : String) (v : Variable)
  | VariablesUpdateSingle (projectID : String) (v : Variable)
  | VariablesDeleteSingle (projectID id : String)
  | VariablesMatchesScope (variableScope definedScope : VariableScope)
  | LifecyclesAdd (l : Lifecycle)
  | LifecyclesGetByID (id : String)
  | LifecyclesUpdate (l : Lifecycle)
  | LifecyclesDeleteByID (id : String)
  | ProjectTriggersAdd (t : ProjectTrigger)
  | ProjectTriggersGetByID (id : String)
  | ProjectTriggersUpdate (t : ProjectTrigger)
  | ProjectTriggersDeleteByID (id : String)
  | AccountsAdd (a : Account)
  | AccountsGetByID (id : String)
  | AccountsUpdate (a : Account)
  deriving DecidableEq, Repr

/-- What an operation leaves behind: the resource data, the returned
`diag.Diagnostics` (`none` is `nil`, success), and the calls made, in order. -/
structure Outcome where
  d : ResourceData
  diags : Option Diagnostic
  trace : List Event

/-- The outcome of an operation that first performs `ev` and then goes on as `o`. -/
def Outcome.after (ev : Event) (o : Outcome) : Outcome :=
  { o with trace := ev :: o.trace }

/-- The statement pair `mutex.Lock(); defer mutex.Unlock()` around a body:
the lock is taken first and released when the function returns. -/
def withMutex (body : Outcome) : Outcome :=
  { body with trace := Event.mutexLock :: (body.trace ++ [Event.mutexUnlock]) }

/-- The conversion `int32(x)` of a Go `int`: the low 32 bits, read as signed. -/
def toInt32 (x : Int) : Int := (x + 2 ^ 31) % 2 ^ 32 - 2 ^ 31

/-! ## `resource_variable.go` -/

/-- The pieces of `strings.Split(s, sep)` for a one-character separator, on
the characters of `s`: always at least one piece. -/
def splitChars (sep : Char) : List Char → List (List Char)
  | [] => [[]]
  | c :: cs =>
    if c = sep then [] :: splitChars sep cs
    else
      match splitChars sep cs with
      | [] => [[c]]
      | piece :: pieces => (c :: piece) :: pieces

/-- The call `strings.Split(s, ":")`. -/
def stringsSplitColon (s : String) : List String :=
  (splitChars ':' s.data).map String.mk

/-- The function `resourceVariableImport`: `Except.error` is the return
`nil, err`, `Except.ok [d]` the return `[]*schema.ResourceData{d}, nil`. -/
def resourceVariableImport (d : ResourceData) : Except GoError (List ResourceData) :=
  let importStrings := stringsSplitColon d.Id
  match importStrings with
  | [s0, s1] =>
    let d := d.Set Key.constProjectID (Value.str s0)
    let d := d.SetId s1
    Except.ok [d]
  | _ =>
    Except.error (GoError.Errorf
      "octopusdeploy_variable import must be in the form of ProjectID:VariableID (e.g. Projects-62:0906031f-68ba-4a15-afaa-657c1564e07b")

/-- The function `resourceVariableRead`. -/
def resourceVariableRead (m : Client) (d : ResourceData) : Outcome :=
  let id := d.Id
  let projectID := (d.Get Key.constProjectID).asString
  Outcome.after (Event.VariablesGetByID projectID id) <|
    match m.Variables.GetByID projectID id with
    | Except.error err =>
      { d := d,
        diags := some (Diagnostic.FromErr
          (createResourceOperationError ErrorKind.errorReadingVariable id err)),
        trace := [] }
    | Except.ok none => { d := d.SetId constEmptyString, diags := none, trace := [] }
    | Except.ok (some resource) =>
      let d := d.Set Key.constName (Value.str resource.Name)
      let d := d.Set Key.constType (Value.str resource.Type_)
      let isSensitive := (d.Get Key.constIsSensitive).asBool
      let d :=
        if isSensitive then d.Set Key.constValue Value.null
        else d.Set Key.constValue (Value.str resource.Value)
      let d := d.Set Key.constDescription (Value.str resource.Description)
      { d := d, diags := none, trace := [] }

/-- The function `buildVariableResource`. -/
def buildVariableResource (x : Externals) (d : ResourceData) : Variable :=
  let varName := (d.Get Key.constName).asString
  let varType := (d.Get Key.constType).asString
  let varDesc :=
    if (d.GetOk Key.constDescription).2 then (d.GetOk Key.constDescription).1.asString else ""
  let varSensitive :=
    if (d.GetOk Key.constIsSensitive).2 then (d.GetOk Key.constIsSensitive).1.asBool else false
  let varValue :=
    if varSensitive then (d.Get Key.constSensitiveValue).asString
    else (d.Get Key.constValue).asString
  let varScopeInterface := x.tfVariableScopetoODVariableScope d
  let newVar := NewVariable varName varType varValue varDesc varScopeInterface varSensitive
  let varPrompt := d.GetOk Key.constPrompt
  if varPrompt.2 then
    let tfPromptSettings := varPrompt.1.asBlocks
    match tfPromptSettings with
    | [tfPromptList] =>
      let newPrompt : VariablePromptOptions :=
        { Description := (mapIndex tfPromptList Key.constDescription).asString,
          Label := (mapIndex tfPromptList Key.constLabel).asString,
          Required := (mapIndex tfPromptList Key.constRequired).asBool }
      { newVar with Prompt := some newPrompt }
    | _ => newVar
  else newVar

/-- The function `validateVariable`; it only reads `d`. -/
def validateVariable (d : ResourceData) : Option Diagnostic :=
  let tfSensitive := (d.Get Key.constIsSensitive).asBool
  let tfType := (d.Get Key.constType).asString
  if tfSensitive && tfType != "Sensitive" then
    some (Diagnostic.Errorf "when is_sensitive is set to true, type needs to be 'Sensitive'")
  else if !tfSensitive && tfType == "Sensitive" then
    some (Diagnostic.Errorf "when type is set to 'Sensitive', is_sensitive needs to be true")
  else none

/-- The `for _, v := range tfVar.Variables` loop of `resourceVariableCreate`
with the two statements after it, run on the records still to be visited. -/
def resourceVariableCreate_loop (m : Client) (d : ResourceData) (projID : String)
    (newVariable : Variable) : List Variable → Outcome
  | [] =>
    { d := d.SetId constEmptyString,
      diags := some (Diagnostic.Errorf ("unable to locate variable in project " ++ projID)),
      trace := [] }
  | v :: rest =>
    if v.Name == newVariable.Name && v.Type_ == newVariable.Type_
        && (v.IsSensitive || v.Value == newVariable.Value)
        && v.Description == newVariable.Description
        && v.IsSensitive == newVariable.IsSensitive then
      Outcome.after (Event.VariablesMatchesScope v.Scope newVariable.Scope) <|
        match m.Variables.MatchesScope v.Scope newVariable.Scope with
        | (_, some err) => { d := d, diags := some (Diagnostic.FromErr err), trace := [] }
        | (scopeMatches, none) =>
          if scopeMatches then { d := d.SetId v.ID, diags := none, trace := [] }
          else resourceVariableCreate_loop m d projID newVariable rest
    else resourceVariableCreate_loop m d projID newVariable rest

/-- The function `resourceVariableCreate`. -/
def resourceVariableCreate (x : Externals) (m : Client) (d : ResourceData) : Outcome :=
  withMutex <|
    match validateVariable d with
    | some err => { d := d, diags := some err, trace := [] }
    | none =>
      let projID := (d.Get Key.constProjectID).asString
      let newVariable := buildVariableResource x d
      Outcome.after (Event.VariablesAddSingle projID newVariable) <|
        match m.Variables.AddSingle projID newVariable with
        | Except.error err =>
          { d := d,
            diags := some (Diagnostic.FromErr
              (createResourceOperationError ErrorKind.errorCreatingVariable newVariable.Name err)),
            trace := [] }
        | Except.ok tfVar => resourceVariableCreate_loop m d projID newVariable tfVar.Variables

/-- The `for _, v := range updatedVars.Variables` loop of
`resourceVariableUpdate` with the two statements after it. -/
def resourceVariableUpdate_loop (m : Client) (d : ResourceData) (projID : String)
    (tfVar : Variable) : List Variable → Outcome
  | [] =>
    { d := d.SetId constEmptyString,
      diags := some (Diagnostic.Errorf ("unable to locate variable in project " ++ projID)),
      trace := [] }
  | v :: rest =>
    if v.Name == tfVar.Name && v.Type_ == tfVar.Type_
        && (v.IsSensitive || v.Value == tfVar.Value)
        && v.Description == tfVar.Description
        && v.IsSensitive == tfVar.IsSensitive then
      Outcome.after (Event.VariablesMatchesScope v.Scope tfVar.Scope) <|
        match m.Variables.MatchesScope v.Scope tfVar.Scope with
        | (scopeMatches, _) =>
          if scopeMatches then { d := d.SetId v.ID, diags := none, trace := [] }
          else resourceVariableUpdate_loop m d projID tfVar rest
    else resourceVariableUpdate_loop m d projID tfVar rest

/-- The function `resourceVariableUpdate`. -/
def resourceVariableUpdate (x : Externals) (m : Client) (d : ResourceData) : Outcome :=
  withMutex <|
    match validateVariable d with
    | some err => { d := d, diags := some err, trace := [] }
    | none =>
      let tfVar := buildVariableResource x d
      let tfVar := { tfVar with ID := d.Id }
      let projID := (d.Get Key.constProjectID).asString
      Outcome.after (Event.VariablesUpdateSingle projID tfVar) <|
        match m.Variables.UpdateSingle projID tfVar with
        | Except.error err =>
          { d := d,
            diags := some (Diagnostic.FromErr
              (createResourceOperationError ErrorKind.errorUpdatingVariable d.Id err)),
            trace := [] }
        | Except.ok updatedVars => resourceVariableUpdate_loop m d projID tfVar updatedVars.Variables

/-- The function `resourceVariableDelete`. -/
def resourceVariableDelete (m : Client) (d : ResourceData) : Outcome :=
  withMutex <|
    let projID := (d.Get Key.constProjectID).asString
    let variableID := d.Id
    Outcome.after (Event.VariablesDeleteSingle projID variableID) <|
      match m.Variables.DeleteSingle projID variableID with
      | Except.error err =>
        { d := d,
          diags := some (Diagnostic.FromErr
            (createResourceOperationError ErrorKind.errorDeletingVariable variableID err)),
          trace := [] }
      | Except.ok _ => { d := d.SetId constEmptyString, diags := none, trace := [] }

/-! ## `resource_lifecycle.go` -/

/-- The function `getRetentionPeriod`; `none` is the `nil` pointer. -/
def getRetentionPeriod (d : ResourceData) (key : Key) : Option RetentionPeriod :=
  let attr := d.GetOk key
  if attr.2 then
    let tfRetentionSettings := attr.1.asBlocks
    match tfRetentionSettings with
    | [tfRetentionItem] =>
      some { Unit := (mapIndex tfRetentionItem Key.constUnit).asString,
             QuantityToKeep := toInt32 (mapIndex tfRetentionItem Key.constQuantityToKeep).asInt }
    | _ => none
  else none

/-- The function `buildPhaseResource`. -/
def buildPhaseResource (x : Externals) (tfPhase : List (Key × Value)) : Phase :=
  let phase : Phase :=
    { Name := (mapIndex tfPhase Key.constName).asString,
      MinimumEnvironmentsBeforePromotion :=
        toInt32 (mapIndex tfPhase Key.constMinimumEnvironmentsBeforePromotion).asInt,
      IsOptionalPhase := (mapIndex tfPhase Key.constIsOptionalPhase).asBool,
      AutomaticDeploymentTargets :=
        x.getSliceFromTerraformTypeList (mapIndex tfPhase Key.constAutomaticDeploymentTargets),
      OptionalDeploymentTargets :=
        x.getSliceFromTerraformTypeList (mapIndex tfPhase Key.constOptionalDeploymentTargets) }
  let phase :=
    if phase.AutomaticDeploymentTargets = none then
      { phase with AutomaticDeploymentTargets := some [] }
    else phase
  let phase :=
    if phase.OptionalDeploymentTargets = none then
      { phase with OptionalDeploymentTargets := some [] }
    else phase
  phase

/-- The function `buildLifecycleResource`. -/
def buildLifecycleResource (x : Externals) (d : ResourceData) : Except GoError Lifecycle :=
  let name := (d.Get Key.constName).asString
  match x.NewLifecycle name with
  | Except.error err => Except.error err
  | Except.ok lifecycle =>
    let lifecycle :=
      if (d.GetOk Key.constDescription).2 then
        { lifecycle with Description := (d.GetOk Key.constDescription).1.asString }
      else lifecycle
    let lifecycle :=
      match getRetentionPeriod d Key.constReleaseRetentionPolicy with
      | some releaseRetentionPolicy =>
        { lifecycle with ReleaseRetentionPolicy := releaseRetentionPolicy }
      | none => lifecycle
    let lifecycle :=
      match getRetentionPeriod d Key.constTentacleRetentionPolicy with
      | some tentacleRetentionPolicy =>
        { lifecycle with TentacleRetentionPolicy := tentacleRetentionPolicy }
      | none => lifecycle
    let lifecycle :=
      if (d.GetOk Key.constPhase).2 then
        let tfPhases := (d.GetOk Key.constPhase).1.asBlocks
        tfPhases.foldl
          (fun lifecycle tfPhase =>
            { lifecycle with Phases := lifecycle.Phases ++ [buildPhaseResource x tfPhase] })
          lifecycle
      else lifecycle
    Except.ok lifecycle

/-- The function `resourceLifecycleCreate`. -/
def resourceLifecycleCreate (x : Externals) (m : Client) (d : ResourceData) : Outcome :=
  match buildLifecycleResource x d with
  | Except.error err => { d := d, diags := some (Diagnostic.FromErr err), trace := [] }
  | Except.ok lifecycle =>
    Outcome.after (Event.LifecyclesAdd lifecycle) <|
      match m.Lifecycles.Add lifecycle with
      | Except.error err => { d := d, diags := some (Diagnostic.FromErr err), trace := [] }
      | Except.ok resource =>
        if x.isEmpty resource.ID then { d := d, diags := none, trace := [] }
        else { d := d.SetId resource.ID, diags := none, trace := [] }

/-- The function `resourceLifecycleRead`. -/
def resourceLifecycleRead (m : Client) (d : ResourceData) : Outcome :=
  let id := d.Id
  Outcome.after (Event.LifecyclesGetByID id) <|
    match m.Lifecycles.GetByID id with
    | Except.error err => { d := d, diags := some (Diagnostic.FromErr err), trace := [] }
    | Except.ok none => { d := d.SetId constEmptyString, diags := none, trace := [] }
    | Except.ok (some resource) =>
      let d := d.Set Key.constName (Value.str resource.Name)
      let d := d.Set Key.constDescription (Value.str resource.Description)
      { d := d, diags := none, trace := [] }

/-- The function `resourceLifecycleUpdate`. -/
def resourceLifecycleUpdate (x : Externals) (m : Client) (d : ResourceData) : Outcome :=
  match buildLifecycleResource x d with
  | Except.error err => { d := d, diags := some (Diagnostic.FromErr err), trace := [] }
  | Except.ok lifecycle =>
    let lifecycle := { lifecycle with ID := d.Id }
    Outcome.after (Event.LifecyclesUpdate lifecycle) <|
      match m.Lifecycles.Update lifecycle with
      | Except.error err => { d := d, diags := some (Diagnostic.FromErr err), trace := [] }
      | Except.ok resource => { d := d.SetId resource.ID, diags := none, trace := [] }

/-- The function `resourceLifecycleDelete`. -/
def resourceLifecycleDelete (m : Client) (d : ResourceData) : Outcome :=
  let id := d.Id
  Outcome.after (Event.LifecyclesDeleteByID id) <|
    match m.Lifecycles.DeleteByID id with
    | some err => { d := d, diags := some (Diagnostic.FromErr err), trace := [] }
    | none => { d := d.SetId constEmptyString, diags := none, trace := [] }

/-! ## `resource_project_deployment_target_trigger.go` -/

/-- The `validValues` of `event_groups`. -/
def validEventGroups : List String :=
  ["Machine", "MachineCritical", "MachineAvailableForDeployment",
   "MachineUnavailableForDeployment", "MachineHealthChanged"]

/-- The `validValues` of `event_categories`. -/
def validEventCategories : List String :=
  ["MachineCleanupFailed", "MachineAdded", "MachineDeploymentRelatedPropertyWasUpdated",
   "MachineDisabled", "MachineEnabled", "MachineHealthy", "MachineUnavailable",
   "MachineUnhealthy", "MachineHasWarnings"]

/-- The text `%v` prints for a `[]string`. -/
def formatSlice (xs : List String) : String := "[" ++ " ".intercalate xs ++ "]"

/-- The function `buildProjectDeploymentTargetTriggerResource`. -/
def buildProjectDeploymentTargetTriggerResource (x : Externals) (d : ResourceData) :
    Except GoError ProjectTrigger := do
  let name := (d.Get Key.constName).asString
  let projectID := (d.Get Key.constProjectID).asString
  let shouldRedeploy := (d.Get Key.constShouldRedeploy).asBool
  let deploymentTargetTrigger :=
    NewProjectDeploymentTargetTrigger name projectID shouldRedeploy none none none
  let deploymentTargetTrigger ←
    if (d.GetOk Key.constEventGroups).2 then
      let eventGroups := x.getSliceFromTerraformTypeList (d.GetOk Key.constEventGroups).1
      let validValues := validEventGroups
      let r := x.validateAllSliceItemsInSlice eventGroups validValues
      if !r.2 then
        Except.error (GoError.Errorf
          ("Invalid value for event_groups. " ++ r.1 ++ " not in " ++ formatSlice validValues))
      else Except.ok (deploymentTargetTrigger.AddEventGroups eventGroups)
    else Except.ok deploymentTargetTrigger
  let deploymentTargetTrigger ←
    if (d.GetOk Key.constEventCategories).2 then
      let eventCategories := x.getSliceFromTerraformTypeList (d.GetOk Key.constEventCategories).1
      let validValues := validEventCategories
      let r := x.validateAllSliceItemsInSlice eventCategories validValues
      if !r.2 then
        Except.error (GoError.Errorf
          ("Invalid value for event_categories. " ++ r.1 ++ " not in " ++ formatSlice validValues))
      else Except.ok (deploymentTargetTrigger.AddEventCategories eventCategories)
    else Except.ok deploymentTargetTrigger
  let deploymentTargetTrigger :=
    if (d.GetOk Key.constRoles).2 then
      { deploymentTargetTrigger with
        Filter := { deploymentTargetTrigger.Filter with
          Roles := x.getSliceFromTerraformTypeList (d.GetOk Key.constRoles).1 } }
    else deploymentTargetTrigger
  let deploymentTargetTrigger :=
    if (d.GetOk Key.constEnvironmentIDs).2 then
      { deploymentTargetTrigger with
        Filter := { deploymentTargetTrigger.Filter with
          EnvironmentIDs := x.getSliceFromTerraformTypeList (d.GetOk Key.constEnvironmentIDs).1 } }
    else deploymentTargetTrigger
  return deploymentTargetTrigger

/-- The function `resourceProjectDeploymentTargetTriggerCreate`. -/
def resourceProjectDeploymentTargetTriggerCreate (x : Externals) (m : Client)
    (d : ResourceData) : Outcome :=
  match buildProjectDeploymentTargetTriggerResource x d with
  | Except.error err => { d := d, diags := some (Diagnostic.FromErr err), trace := [] }
  | Except.ok projectTrigger =>
    Outcome.after (Event.ProjectTriggersAdd projectTrigger) <|
      match m.ProjectTriggers.Add projectTrigger with
      | Except.error err =>
        { d := d,
          diags := some (Diagnostic.FromErr
            (createResourceOperationError ErrorKind.errorCreatingProjectTrigger
              projectTrigger.Name err)),
          trace := [] }
      | Except.ok resource =>
        if x.isEmpty resource.ID then { d := d, diags := none, trace := [] }
        else { d := d.SetId resource.ID, diags := none, trace := [] }

/-- The function `resourceProjectDeploymentTargetTriggerRead`. -/
def resourceProjectDeploymentTargetTriggerRead (m : Client) (d : ResourceData) : Outcome :=
  let id := d.Id
  Outcome.after (Event.ProjectTriggersGetByID id) <|
    match m.ProjectTriggers.GetByID id with
    | Except.error err =>
      { d := d,
        diags := some (Diagnostic.FromErr
          (createResourceOperationError ErrorKind.errorReadingProjectTrigger id err)),
        trace := [] }
    | Except.ok none => { d := d.SetId constEmptyString, diags := none, trace := [] }
    | Except.ok (some resource) =>
      let d := d.Set Key.constName (Value.str resource.Name)
      let d := d.Set Key.constShouldRedeploy
        (Value.bool resource.Action.ShouldRedeployWhenMachineHasBeenDeployedTo)
      let d := d.Set Key.constEventGroups (sliceValue resource.Filter.EventGroups)
      let d := d.Set Key.constEventCategories (sliceValue resource.Filter.EventCategories)
      let d := d.Set Key.constRoles (sliceValue resource.Filter.Roles)
      let d := d.Set Key.constEnvironmentIDs (sliceValue resource.Filter.EnvironmentIDs)
      { d := d, diags := none, trace := [] }

/-- The function `resourceProjectDeploymentTargetTriggerUpdate`. -/
def resourceProjectDeploymentTargetTriggerUpdate (x : Externals) (m : Client)
    (d : ResourceData) : Outcome :=
  match buildProjectDeploymentTargetTriggerResource x d with
  | Except.error err => { d := d, diags := some (Diagnostic.FromErr err), trace := [] }
  | Except.ok projectTrigger =>
    let projectTrigger := { projectTrigger with ID := d.Id }
    Outcome.after (Event.ProjectTriggersUpdate projectTrigger) <|
      match m.ProjectTriggers.Update projectTrigger with
      | Except.error err =>
        { d := d,
          diags := some (Diagnostic.FromErr
            (createResourceOperationError ErrorKind.errorUpdatingProjectTrigger d.Id err)),
          trace := [] }
      | Except.ok resource => { d := d.SetId resource.ID, diags := none, trace := [] }

/-- The function `resourceProjectDeploymentTargetTriggerDelete`. -/
def resourceProjectDeploymentTargetTriggerDelete (m : Client) (d : ResourceData) : Outcome :=
  let id := d.Id
  Outcome.after (Event.ProjectTriggersDeleteByID id) <|
    match m.ProjectTriggers.DeleteByID id with
    | some err =>
      { d := d,
        diags := some (Diagnostic.FromErr
          (createResourceOperationError ErrorKind.errorDeletingProjectTrigger id err)),
        trace := [] }
    | none => { d := d.SetId constEmptyString, diags := none, trace := [] }

/-! ## `resource_azure_service_principal.go` -/

/-- The function `buildAzureServicePrincipalResource`. -/
def buildAzureServicePrincipalResource (x : Externals) (d : ResourceData) :
    Except GoError Account := do
  let name := (d.Get Key.constName).asString
  let password := (d.Get Key.constKey).asString
  let secretKey := NewSensitiveValue password
  let applicationID ← x.uuidParse (d.Get Key.constClientID).asString
  let tenantID ← x.uuidParse (d.Get Key.constTenantID).asString
  let subscriptionID ← x.uuidParse (d.Get Key.constSubscriptionNumber).asString
  let account ← x.NewAzureServicePrincipalAccount name subscriptionID tenantID applicationID secretKey
  let account :=
    if (d.GetOk Key.constDescription).2 then
      { account with Description := (d.GetOk Key.constDescription).1.asString }
    else account
  let account :=
    if (d.GetOk Key.constEnvironments).2 then
      { account with
        EnvironmentIDs := x.getSliceFromTerraformTypeList (d.GetOk Key.constEnvironments).1 }
    else account
  let account :=
    if (d.GetOk Key.constTenantedDeploymentParticipation).2 then
      { account with
        TenantedDeploymentParticipation :=
          (x.ParseTenantedDeploymentMode
            (d.GetOk Key.constTenantedDeploymentParticipation).1.asString).1 }
    else account
  let account :=
    if (d.GetOk Key.constTenantTags).2 then
      { account with TenantTags := x.getSliceFromTerraformTypeList (d.GetOk Key.constTenantTags).1 }
    else account
  let account :=
    if (d.GetOk Key.constTenants).2 then
      { account with TenantIDs := x.getSliceFromTerraformTypeList (d.GetOk Key.constTenants).1 }
    else account
  let account :=
    if (d.GetOk Key.constResourceManagementEndpointBaseURI).2 then
      { account with
        ResourceManagementEndpointBase :=
          (d.GetOk Key.constResourceManagementEndpointBaseURI).1.asString }
    else account
  let account :=
    if (d.GetOk Key.constActiveDirectoryEndpointBaseURI).2 then
      { account with
        ActiveDirectoryEndpointBase :=
          (d.GetOk Key.constActiveDirectoryEndpointBaseURI).1.asString }
    else account
  match x.AccountValidate account with
  | some err => Except.error err
  | none => Except.ok account

/-- The function `resourceAzureServicePrincipalCreate`. -/
def resourceAzureServicePrincipalCreate (x : Externals) (m : Client) (d : ResourceData) :
    Outcome :=
  match buildAzureServicePrincipalResource x d with
  | Except.error err => { d := d, diags := some (Diagnostic.FromErr err), trace := [] }
  | Except.ok account =>
    Outcome.after (Event.AccountsAdd account) <|
      match m.Accounts.Add account with
      | Except.error err =>
        { d := d,
          diags := some (Diagnostic.FromErr
            (createResourceOperationError ErrorKind.errorCreatingAzureServicePrincipal
              account.Name err)),
          trace := [] }
      | Except.ok resource =>
        if x.isEmpty resource.ID then { d := d, diags := none, trace := [] }
        else { d := d.SetId resource.ID, diags := none, trace := [] }

/-- The function `resourceAzureServicePrincipalRead`. -/
def resourceAzureServicePrincipalRead (m : Client) (d : ResourceData) : Outcome :=
  let id := d.Id
  Outcome.after (Event.AccountsGetByID id) <|
    match m.Accounts.GetByID id with
    | Except.error err =>
      { d := d,
        diags := some (Diagnostic.FromErr
          (createResourceOperationError ErrorKind.errorReadingAzureServicePrincipal id err)),
        trace := [] }
    | Except.ok none => { d := d.SetId constEmptyString, diags := none, trace := [] }
    | Except.ok (some resource) =>
      let d := d.Set Key.constName (Value.str resource.Name)
      let d := d.Set Key.constDescription (Value.str resource.Description)
      let d := d.Set Key.constEnvironments (sliceValue resource.EnvironmentIDs)
      let d := d.Set Key.constTenantedDeploymentParticipation
        (Value.str resource.TenantedDeploymentParticipation.String)
      let d := d.Set Key.constTenantTags (sliceValue resource.TenantTags)
      let d := d.Set Key.constClientID (Value.uuid resource.ApplicationID)
      let d := d.Set Key.constTenantID (sliceValue resource.TenantIDs)
      let d := d.Set Key.constSubscriptionNumber (Value.uuid resource.SubscriptionID)
      let d := d.Set Key.constKey (Value.sensitive resource.Password)
      let d := d.Set Key.constAzureEnvironment (Value.str resource.AzureEnvironment)
      let d := d.Set Key.constResourceManagementEndpointBaseURI
        (Value.str resource.ResourceManagementEndpointBase)
      let d := d.Set Key.constActiveDirectoryEndpointBaseURI
        (Value.str resource.ActiveDirectoryEndpointBase)
      { d := d, diags := none, trace := [] }

/-- The function `resourceAzureServicePrincipalUpdate`. -/
def resourceAzureServicePrincipalUpdate (x : Externals) (m : Client) (d : ResourceData) :
    Outcome :=
  match buildAzureServicePrincipalResource x d with
  | Except.error err => { d := d, diags := some (Diagnostic.FromErr err), trace := [] }
  | Except.ok account =>
    let account := { account with ID := d.Id }
    Outcome.after (Event.AccountsUpdate account) <|
      match m.Accounts.Update account with
      | Except.error err =>
        { d := d,
          diags := some (Diagnostic.FromErr
            (createResourceOperationError ErrorKind.errorUpdatingAzureServicePrincipal d.Id err)),
          trace := [] }
      | Except.ok resource => { d := d.SetId resource.ID, diags := none, trace := [] }

/-! ## The selection predicate of the reconciler, in the spec's words -/

/-- The field part of the spec's selection predicate (section 4.2): a returned
record `R` against a candidate `C`. -/
def fieldsMatch (R C : Variable) : Prop :=
  R.Name = C.Name ∧ R.Type_ = C.Type_ ∧ R.Description = C.Description ∧
    R.IsSensitive = C.IsSensitive ∧ (R.IsSensitive = true ∨ R.Value = C.Value)

instance (R C : Variable) : Decidable (fieldsMatch R C) := by
  unfold fieldsMatch; infer_instance

/-- The full selection predicate: the fields match and the client's scope
matcher answers `true` for the two scopes. -/
def qualifies (m : Client) (R C : Variable) : Prop :=
  fieldsMatch R C ∧ (m.Variables.MatchesScope R.Scope C.Scope).1 = true

instance (m : Client) (R C : Variable) : Decidable (qualifies m R C) := by
  unfold qualifies; infer_instance

/-! ## Concrete collaborators, for running the operations on given inputs -/

/-- Whether two identifier lists hold the same set of identifiers. -/
def sameSet (xs ys : List String) : Bool :=
  xs.all (fun a => ys.contains a) && ys.all (fun b => xs.contains b)

/-- Modelled from the spec: the scope matcher `Equivalent` of section 4.1,
"for each of the fixed, known dimensions, convert both sides' identifier
collections to sets (duplicates collapse, order ignored) and compare set
equality; all dimensions must match". -/
def Equivalent (a b : VariableScope) : Bool :=
  sameSet a.EnvironmentIDs b.EnvironmentIDs && sameSet a.MachineIDs b.MachineIDs
    && sameSet a.Roles b.Roles && sameSet a.Actions b.Actions
    && sameSet a.Channels b.Channels && sameSet a.TenantTags b.TenantTags
    && sameSet a.ProcessNames b.ProcessNames

/-- A client whose server cannot be reached: every endpoint that changes
remote state fails, every lookup finds nothing, and scopes never match. -/
def offlineClient : Client :=
  { Variables :=
      { GetByID := fun _ _ => Except.ok none,
        AddSingle := fun _ _ => Except.error (GoError.external "connection refused"),
        UpdateSingle := fun _ _ => Except.error (GoError.external "connection refused"),
        DeleteSingle := fun _ _ => Except.error (GoError.external "connection refused"),
        MatchesScope := fun _ _ => (false, none) },
    Lifecycles :=
      { Add := fun _ => Except.error (GoError.external "connection refused"),
        GetByID := fun _ => Except.ok none,
        Update := fun _ => Except.error (GoError.external "connection refused"),
        DeleteByID := fun _ => some (GoError.external "connection refused") },
    ProjectTriggers :=
      { Add := fun _ => Except.error (GoError.external "connection refused"),
        GetByID := fun _ => Except.ok none,
        Update := fun _ => Except.error (GoError.external "connection refused"),
        DeleteByID := fun _ => some (GoError.external "connection refused") },
    Accounts :=
      { Add := fun _ => Except.error (GoError.external "connection refused"),
        GetByID := fun _ => Except.ok none,
        Update := fun _ => Except.error (GoError.external "connection refused") } }

/-- A client whose variable endpoints answer with the collection `returned`
and whose scope matcher is `matcher`. -/
def projectClient (returned : List Variable)
    (matcher : VariableScope → VariableScope → Bool × Option GoError) : Client :=
  { offlineClient with
    Variables :=
      { GetByID := fun _ _ => Except.ok none,
        AddSingle := fun _ _ => Except.ok { Variables := returned },
        UpdateSingle := fun _ _ => Except.ok { Variables := returned },
        DeleteSingle := fun _ _ => Except.ok { Variables := returned },
        MatchesScope := matcher } }

/-- The matcher of the spec, which reports no error. -/
def equivalentMatcher (a b : VariableScope) : Bool × Option GoError := (Equivalent a b, none)

/-- A matcher that reports an error whenever the returned record is scoped to
the environment `Env-broken`, and otherwise answers as the spec's matcher. -/
def brokenEnvironmentMatcher (a b : VariableScope) : Bool × Option GoError :=
  if a.EnvironmentIDs.contains "Env-broken" then
    (false, some (GoError.external "scope lookup failed"))
  else (Equivalent a b, none)

/-- Collaborators outside the client, with the declared scope fixed to `scope`. -/
def sampleExternals (scope : VariableScope) : Externals :=
  { tfVariableScopetoODVariableScope := fun _ => scope,
    isEmpty := fun s => s == "",
    getSliceFromTerraformTypeList := fun v =>
      match v with
      | Value.strs xs => some xs
      | _ => none,
    validateAllSliceItemsInSlice := fun given valid =>
      match (given.getD []).find? (fun a => !valid.contains a) with
      | some a => (a, false)
      | none => ("", true),
    NewLifecycle := fun name =>
      Except.ok { ID := "", Name := name, Description := "",
                  ReleaseRetentionPolicy := { Unit := "Days", QuantityToKeep := 0 },
                  TentacleRetentionPolicy := { Unit := "Days", QuantityToKeep := 0 },
                  Phases := [] },
    uuidParse := fun s => Except.ok { text := s },
    NewAzureServicePrincipalAccount := fun name subscriptionID tenantID applicationID secretKey =>
      Except.ok { ID := "", Name := name, Description := "", EnvironmentIDs := none,
                  TenantedDeploymentParticipation := { text := "Untenanted" },
                  TenantTags := none, TenantIDs := none,
                  ApplicationID := some applicationID, SubscriptionID := some subscriptionID,
                  TenantID := some tenantID, Password := some secretKey,
                  AzureEnvironment := "", ResourceManagementEndpointBase := "",
                  ActiveDirectoryEndpointBase := "" },
    AccountValidate := fun _ => none,
    ParseTenantedDeploymentMode := fun s => ({ text := s }, none) }

/-- Resource data with tracked identifier `id` and the attributes listed. -/
def resourceData (id : String) (attrs : List (Key × Value)) : ResourceData :=
  { id := id, attrs := fun k => mapIndex attrs k }

/-- The scope `{Environments: ["Env-1"]}`. -/
def scopeEnv1 : VariableScope := { EnvironmentIDs := ["Env-1"] }

/-- The declared variable of the spec's first scenario, in project `Projects-1`. -/
def portData : ResourceData :=
  resourceData "Variables-3"
    [(Key.constProjectID, Value.str "Projects-1"), (Key.constName, Value.str "Port"),
     (Key.constType, Value.str "String"), (Key.constValue, Value.str "8080"),
     (Key.constIsSensitive, Value.bool false)]

/-- A returned record equal to the `Port` candidate, with the given identifier and scope. -/
def portRecord (id : String) (scope : VariableScope) : Variable :=
  { ID := id, Name := "Port", Type_ := "String", Value := "8080", Description := "",
    Scope := scope, IsSensitive := false, Prompt := none }

/-- The declared sensitive variable of the spec's third scenario. -/
def passwordData : ResourceData :=
  resourceData "Variables-0"
    [(Key.constProjectID, Value.str "Projects-1"), (Key.constName, Value.str "DBPassword"),
     (Key.constType, Value.str "Sensitive"), (Key.constIsSensitive, Value.bool true)]

/-- A returned `DBPassword` record whose value is the mask `***`. -/
def passwordRecord (id : String) : Variable :=
  { ID := id, Name := "DBPassword", Type_ := "Sensitive", Value := "***", Description := "",
    Scope := {}, IsSensitive := true, Prompt := none }

/-- The scope `{Environments: ["Env-2"]}`. -/
def scopeEnv2 : VariableScope := { EnvironmentIDs := ["Env-2"] }

/-- The scope `{Environments: ["Env-broken"]}`. -/
def scopeBroken : VariableScope := { EnvironmentIDs := ["Env-broken"] }

/-- A returned collection with duplicates: the records at positions 1 and 2
both equal the `Port` candidate scoped to `Env-1`; position 0 differs in scope only. -/
def duplicatePorts (first : VariableScope) : List Variable :=
  [portRecord "Variables-1" first, portRecord "Variables-2" scopeEnv1,
   portRecord "Variables-3" scopeEnv1]

/-! ## Names used in the statements -/

/-- The project identifier an operation reads from `d`. -/
def projectOf (d : ResourceData) : String := (d.Get Key.constProjectID).asString

/-- The record `resourceVariableUpdate` sends and reconciles against: the
built variable with the tracked identifier as its `ID`. -/
def updateCandidate (x : Externals) (d : ResourceData) : Variable :=
  { buildVariableResource x d with ID := d.Id }

/-- The message `msg` contains the text `part`. -/
def containsText (msg part : String) : Prop := part.data <:+: msg.data

instance (msg part : String) : Decidable (containsText msg part) := by
  unfold containsText; infer_instance

/-- Whether the declared `is_sensitive` and `type` disagree. -/
def sensitivityMismatch (d : ResourceData) : Prop :=
  (d.Get Key.constIsSensitive).asBool ≠ decide ((d.Get Key.constType).asString = "Sensitive")

instance (d : ResourceData) : Decidable (sensitivityMismatch d) := by
  unfold sensitivityMismatch; infer_instance

/-- A declared variable that says `is_sensitive = true` with type `String`. -/
def mismatchedData : ResourceData :=
  resourceData "Variables-5"
    [(Key.constProjectID, Value.str "Projects-1"), (Key.constName, Value.str "Port"),
     (Key.constType, Value.str "String"), (Key.constValue, Value.str "8080"),
     (Key.constIsSensitive, Value.bool true)]

/-- A declared lifecycle, trigger or account named `Default`, tracked as `Resources-1`. -/
def namedData : ResourceData :=
  resourceData "Resources-1"
    [(Key.constName, Value.str "Default"), (Key.constProjectID, Value.str "Projects-1")]

/-- The error every changing endpoint of `offlineClient` answers with. -/
def connectionRefused : GoError := GoError.external "connection refused"

/-- A declared trigger whose `event_groups` holds the value `MachineRebooted`,
which is not an allowed event group. -/
def badGroupsData : ResourceData :=
  resourceData "ProjectTriggers-4"
    [(Key.constName, Value.str "Default"), (Key.constProjectID, Value.str "Projects-1"),
     (Key.constEventGroups, Value.strs ["Machine", "MachineRebooted"])]

/-- A declared trigger whose `event_categories` holds the value `MachineDeleted`,
which is not an allowed event category; its `event_groups` are allowed. -/
def badCategoriesData : ResourceData :=
  resourceData "ProjectTriggers-4"
    [(Key.constName, Value.str "Default"), (Key.constProjectID, Value.str "Projects-1"),
     (Key.constEventGroups, Value.strs ["Machine"]),
     (Key.constEventCategories, Value.strs ["MachineAdded", "MachineDeleted"])]

/-- A client on which every endpoint that changes remote state succeeds and
answers with the record it was sent, given the identifier `id`. -/
def acceptingClient (id : String) : Client :=
  { offlineClient with
    Lifecycles :=
      { Add := fun l => Except.ok { l with ID := id },
        GetByID := fun _ => Except.ok none,
        Update := fun l => Except.ok l,
        DeleteByID := fun _ => none },
    ProjectTriggers :=
      { Add := fun t => Except.ok { t with ID := id },
        GetByID := fun _ => Except.ok none,
        Update := fun t => Except.ok t,
        DeleteByID := fun _ => none },
    Accounts :=
      { Add := fun a => Except.ok { a with ID := id },
        GetByID := fun _ => Except.ok none,
        Update := fun a => Except.ok a } }

/-! ## Runs of concurrent operations and the package-level `mutex` -/

/-- One step of a run of the process: the invocation that takes it (one call
of an adapter operation, running on its own goroutine) and the step taken. -/
structure Step where
  invocation : Nat
  event : Event
  deriving DecidableEq, Repr

/-- The package-level `mutex`, a `sync.Mutex`, by whether it is locked:
`Lock` returns only on an unlocked mutex and locks it, `Unlock` unlocks a
locked mutex and is a fatal error on an unlocked one, any other step leaves
the mutex alone. `none` says that the step cannot be taken in that state. -/
def mutexStep (locked : Bool) (ev : Event) : Option Bool :=
  match ev, locked with
  | Event.mutexLock, false => some true
  | Event.mutexLock, true => none
  | Event.mutexUnlock, true => some false
  | Event.mutexUnlock, false => none
  | _, l => some l

/-- The state of the mutex after the steps of `run`, when all can be taken. -/
def mutexRun : Bool → List Step → Option Bool
  | l, [] => some l
  | l, s :: rest =>
    match mutexStep l s.event with
    | some l' => mutexRun l' rest
    | none => none

/-- The steps invocation `i` has taken in `run`, in order. -/
def eventsOf (i : Nat) (run : List Step) : List Event :=
  (run.filter (fun s => s.invocation == i)).map (fun s => s.event)

/-- A run of the process in which invocation `i` executes the operation whose
trace is `job i`: every invocation has taken a beginning of its trace, and the
mutex, unlocked at the start, allowed every step in the order taken. -/
def isRun (job : Nat → List Event) (run : List Step) : Prop :=
  (∀ i, eventsOf i run <+: job i) ∧ (mutexRun false run).isSome = true

/-- Invocation `i` is between its `mutex.Lock()` and its `mutex.Unlock()`
after `run`. -/
def holdsMutex (i : Nat) (run : List Step) : Prop :=
  Event.mutexLock ∈ eventsOf i run ∧ Event.mutexUnlock ∉ eventsOf i run

instance (i : Nat) (run : List Step) : Decidable (holdsMutex i run) := by
  unfold holdsMutex; infer_instance

/-- A trace with no step on the mutex. -/
def mutexFree (tr : List Event) : Prop :=
  Event.mutexLock ∉ tr ∧ Event.mutexUnlock ∉ tr

/-- A trace that takes the mutex first, releases it last, and does not touch
it in between. -/
def bracketed (tr : List Event) : Prop :=
  ∃ body, tr = Event.mutexLock :: (body ++ [Event.mutexUnlock]) ∧ mutexFree body

/-- The traces of the three mutating operations of the variable adapter. -/
def isVariableMutationTrace (tr : List Event) : Prop :=
  ∃ (x : Externals) (m : Client) (d : ResourceData),
    tr = (resourceVariableCreate x m d).trace ∨ tr = (resourceVariableUpdate x m d).trace ∨
      tr = (resourceVariableDelete m d).trace

/-- The traces of the four operations of the variable adapter. -/
def isVariableOperationTrace (tr : List Event) : Prop :=
  isVariableMutationTrace tr ∨ ∃ (m : Client) (d : ResourceData),
    tr = (resourceVariableRead m d).trace

/-- Three operations running at once: invocation 0 creates the `Port`
variable, invocation 1 deletes it, every other invocation reads it. -/
def sampleJob : Nat → List Event
  | 0 => (resourceVariableCreate (sampleExternals scopeEnv1)
      (projectClient [portRecord "Variables-7" scopeEnv1] equivalentMatcher) portData).trace
  | 1 => (resourceVariableDelete offlineClient portData).trace
  | _ => (resourceVariableRead offlineClient portData).trace

/-- A run of `sampleJob`: the create has finished, a read was interleaved with
it, and the delete has taken the mutex and made its remote call. -/
def sampleRun : List Step :=
  [{ invocation := 0, event := Event.mutexLock },
   { invocation := 0, event := Event.VariablesAddSingle "Projects-1"
       (buildVariableResource (sampleExternals scopeEnv1) portData) },
   { invocation := 2, event := Event.VariablesGetByID "Projects-1" "Variables-3" },
   { invocation := 0, event := Event.VariablesMatchesScope scopeEnv1 scopeEnv1 },
   { invocation := 0, event := Event.mutexUnlock },
   { invocation := 1, event := Event.mutexLock },
   { invocation := 1, event := Event.VariablesDeleteSingle "Projects-1" "Variables-3" }]

/-- The `MatchesScope` calls made for the records `vs` against candidate `c`. -/
def matchesEvents (vs : List Variable) (c : Variable) : List Event :=
  vs.map (fun v => Event.VariablesMatchesScope v.Scope c.Scope)

/-- A declared lifecycle with one release retention block of 30 days and one
phase whose target lists are not set. -/
def retentionData : ResourceData :=
  resourceData "Lifecycles-2"
    [(Key.constName, Value.str "Default"),
     (Key.constReleaseRetentionPolicy,
       Value.blocks [[(Key.constUnit, Value.str "Days"), (Key.constQuantityToKeep, Value.int 30)]]),
     (Key.constPhase,
       Value.blocks [[(Key.constName, Value.str "Dev"),
         (Key.constMinimumEnvironmentsBeforePromotion, Value.int 1),
         (Key.constIsOptionalPhase, Value.bool false)]])]

/-! ## Lemmas on outcomes and on the two reconciliation loops -/

@[simp]
theorem Outcome.after_d (ev : Event) (o : Outcome) : (Outcome.after ev o).d = o.d := rfl

@[simp]
theorem Outcome.after_diags (ev : Event) (o : Outcome) :
    (Outcome.after ev o).diags = o.diags := rfl

@[simp]
theorem Outcome.after_trace (ev : Event) (o : Outcome) :
    (Outcome.after ev o).trace = ev :: o.trace := rfl

@[simp]
theorem withMutex_d (o : Outcome) : (withMutex o).d = o.d := rfl

@[simp]
theorem withMutex_diags (o : Outcome) : (withMutex o).diags = o.diags := rfl

@[simp]
theorem withMutex_trace (o : Outcome) :
    (withMutex o).trace = Event.mutexLock :: (o.trace ++ [Event.mutexUnlock]) := rfl

/-- The condition written in both loops is the field part of the selection predicate. -/
theorem loop_condition_iff (v c : Variable) :
    (v.Name == c.Name && v.Type_ == c.Type_ && (v.IsSensitive || v.Value == c.Value)
      && v.Description == c.Description && v.IsSensitive == c.IsSensitive) = true
      ↔ fieldsMatch v c := by
  simp only [fieldsMatch, Bool.and_eq_true, Bool.or_eq_true, beq_iff_eq]
  tauto

theorem create_loop_cons_skip (m : Client) (d : ResourceData) (projID : String)
    (c v : Variable) (rest : List Variable) (h : ¬ fieldsMatch v c) :
    resourceVariableCreate_loop m d projID c (v :: rest)
      = resourceVariableCreate_loop m d projID c rest := by
  rw [resourceVariableCreate_loop, if_neg]
  rwa [loop_condition_iff]

theorem create_loop_cons_match (m : Client) (d : ResourceData) (projID : String)
    (c v : Variable) (rest : List Variable) (h : fieldsMatch v c) :
    resourceVariableCreate_loop m d projID c (v :: rest)
      = Outcome.after (Event.VariablesMatchesScope v.Scope c.Scope)
          (match m.Variables.MatchesScope v.Scope c.Scope with
            | (_, some err) => { d := d, diags := some (Diagnostic.FromErr err), trace := [] }
            | (scopeMatches, none) =>
              if scopeMatches then { d := d.SetId v.ID, diags := none, trace := [] }
              else resourceVariableCreate_loop m d projID c rest) := by
  rw [resourceVariableCreate_loop, if_pos]
  rwa [loop_condition_iff]

theorem update_loop_cons_skip (m : Client) (d : ResourceData) (projID : String)
    (c v : Variable) (rest : List Variable) (h : ¬ fieldsMatch v c) :
    resourceVariableUpdate_loop m d projID c (v :: rest)
      = resourceVariableUpdate_loop m d projID c rest := by
  rw [resourceVariableUpdate_loop, if_neg]
  rwa [loop_condition_iff]

theorem update_loop_cons_match (m : Client) (d : ResourceData) (projID : String)
    (c v : Variable) (rest : List Variable) (h : fieldsMatch v c) :
    resourceVariableUpdate_loop m d projID c (v :: rest)
      = Outcome.after (Event.VariablesMatchesScope v.Scope c.Scope)
          (if (m.Variables.MatchesScope v.Scope c.Scope).1 then
            { d := d.SetId v.ID, diags := none, trace := [] }
          else resourceVariableUpdate_loop m d projID c rest) := by
  rw [resourceVariableUpdate_loop, if_pos]
  rwa [loop_condition_iff]

/-- A successful run of the create loop stops at a record that qualifies and
for which the matcher reported no error. -/
theorem create_loop_sound (m : Client) (d : ResourceData) (projID : String) (c : Variable)
    (l : List Variable)
    (h : (resourceVariableCreate_loop m d projID c l).diags = none) :
    ∃ R ∈ l, (resourceVariableCreate_loop m d projID c l).d = d.SetId R.ID ∧
      qualifies m R c ∧ (m.Variables.MatchesScope R.Scope c.Scope).2 = none := by
  induction l with
  | nil => simp [resourceVariableCreate_loop] at h
  | cons v rest ih =>
    by_cases hf : fieldsMatch v c
    · rw [create_loop_cons_match m d projID c v rest hf] at h ⊢
      rcases hms : m.Variables.MatchesScope v.Scope c.Scope with ⟨b, e⟩
      rw [hms] at h
      cases e with
      | some err => simp at h
      | none =>
        cases b with
        | true =>
          refine ⟨v, List.mem_cons_self _ _, ?_, ⟨hf, ?_⟩, ?_⟩
          · simp
          · rw [hms]
          · rw [hms]
        | false =>
          simp only [Outcome.after_diags, Bool.false_eq_true, if_false] at h
          obtain ⟨R, hR, hd, hq, he⟩ := ih h
          exact ⟨R, List.mem_cons_of_mem _ hR, by simpa using hd, hq, he⟩
    · rw [create_loop_cons_skip m d projID c v rest hf] at h ⊢
      obtain ⟨R, hR, hd, hq, he⟩ := ih h
      exact ⟨R, List.mem_cons_of_mem _ hR, hd, hq, he⟩

/-- A successful run of the update loop stops at a record that qualifies. -/
theorem update_loop_sound (m : Client) (d : ResourceData) (projID : String) (c : Variable)
    (l : List Variable)
    (h : (resourceVariableUpdate_loop m d projID c l).diags = none) :
    ∃ R ∈ l, (resourceVariableUpdate_loop m d projID c l).d = d.SetId R.ID ∧
      qualifies m R c := by
  induction l with
  | nil => simp [resourceVariableUpdate_loop] at h
  | cons v rest ih =>
    by_cases hf : fieldsMatch v c
    · rw [update_loop_cons_match m d projID c v rest hf] at h ⊢
      by_cases hb : (m.Variables.MatchesScope v.Scope c.Scope).1 = true
      · exact ⟨v, List.mem_cons_self _ _, by simp [hb], hf, hb⟩
      · simp only [Outcome.after_diags, hb, if_false] at h
        obtain ⟨R, hR, hd, hq⟩ := ih h
        exact ⟨R, List.mem_cons_of_mem _ hR, by simpa [hb] using hd, hq⟩
    · rw [update_loop_cons_skip m d projID c v rest hf] at h ⊢
      obtain ⟨R, hR, hd, hq⟩ := ih h
      exact ⟨R, List.mem_cons_of_mem _ hR, hd, hq⟩

theorem update_loop_first (m : Client) (d : ResourceData) (projID : String) (c : Variable)
    (l : List Variable) (i : Nat) (R : Variable) (hi : l[i]? = some R) (hq : qualifies m R c)
    (hmin : ∀ j R', j < i → l[j]? = some R' → ¬ qualifies m R' c) :
    (resourceVariableUpdate_loop m d projID c l).d = d.SetId R.ID ∧
      (resourceVariableUpdate_loop m d projID c l).diags = none := by
  induction l generalizing i with
  | nil => simp at hi
  | cons v rest ih =>
    cases i with
    | zero =>
      simp only [List.getElem?_cons_zero, Option.some.injEq] at hi
      subst hi
      rw [update_loop_cons_match m d projID c v rest hq.1]
      simp [hq.2]
    | succ k =>
      have hv : ¬ qualifies m v c := hmin 0 v (Nat.succ_pos k) (by simp)
      have hrest := ih k (by simpa using hi)
        (fun j R' hj hR' => hmin (j + 1) R' (Nat.succ_lt_succ hj) (by simpa using hR'))
      by_cases hf : fieldsMatch v c
      · have hb : ¬ (m.Variables.MatchesScope v.Scope c.Scope).1 = true := fun hb => hv ⟨hf, hb⟩
        rw [update_loop_cons_match m d projID c v rest hf]
        simpa [hb] using hrest
      · rw [update_loop_cons_skip m d projID c v rest hf]
        exact hrest

theorem create_loop_first (m : Client) (d : ResourceData) (projID : String) (c : Variable)
    (l : List Variable) (i : Nat) (R : Variable) (hi : l[i]? = some R) (hq : qualifies m R c)
    (hmin : ∀ j R', j < i → l[j]? = some R' → ¬ qualifies m R' c)
    (herr : ∀ j R', j ≤ i → l[j]? = some R' → fieldsMatch R' c →
      (m.Variables.MatchesScope R'.Scope c.Scope).2 = none) :
    (resourceVariableCreate_loop m d projID c l).d = d.SetId R.ID ∧
      (resourceVariableCreate_loop m d projID c l).diags = none := by
  induction l generalizing i with
  | nil => simp at hi
  | cons v rest ih =>
    have he0 : fieldsMatch v c → (m.Variables.MatchesScope v.Scope c.Scope).2 = none :=
      herr 0 v (Nat.zero_le i) (by simp)
    cases i with
    | zero =>
      simp only [List.getElem?_cons_zero, Option.some.injEq] at hi
      subst hi
      rw [create_loop_cons_match m d projID c v rest hq.1]
      have h1 := hq.2
      have h2 := he0 hq.1
      rcases hms : m.Variables.MatchesScope v.Scope c.Scope with ⟨b, e⟩
      rw [hms] at h1 h2
      simp only at h1 h2
      subst h1 h2
      simp
    | succ k =>
      have hv : ¬ qualifies m v c := hmin 0 v (Nat.succ_pos k) (by simp)
      have hrest := ih k (by simpa using hi)
        (fun j R' hj hR' => hmin (j + 1) R' (Nat.succ_lt_succ hj) (by simpa using hR'))
        (fun j R' hj hR' => herr (j + 1) R' (Nat.succ_le_succ hj) (by simpa using hR'))
      by_cases hf : fieldsMatch v c
      · have hb : ¬ (m.Variables.MatchesScope v.Scope c.Scope).1 = true := fun hb => hv ⟨hf, hb⟩
        have h2 := he0 hf
        rw [create_loop_cons_match m d projID c v rest hf]
        rcases hms : m.Variables.MatchesScope v.Scope c.Scope with ⟨b, e⟩
        rw [hms] at hb h2
        simp only at hb h2
        subst h2
        simp only [Bool.not_eq_true] at hb
        subst hb
        simpa using hrest
      · rw [create_loop_cons_skip m d projID c v rest hf]
        exact hrest

theorem update_loop_none (m : Client) (d : ResourceData) (projID : String) (c : Variable)
    (l : List Variable) (hno : ∀ R ∈ l, ¬ qualifies m R c) :
    (resourceVariableUpdate_loop m d projID c l).d = d.SetId constEmptyString ∧
      (resourceVariableUpdate_loop m d projID c l).diags
        = some (Diagnostic.Errorf ("unable to locate variable in project " ++ projID)) := by
  induction l with
  | nil => simp [resourceVariableUpdate_loop]
  | cons v rest ih =>
    have hv : ¬ qualifies m v c := hno v (List.mem_cons_self _ _)
    have hrest := ih (fun R hR => hno R (List.mem_cons_of_mem _ hR))
    by_cases hf : fieldsMatch v c
    · have hb : ¬ (m.Variables.MatchesScope v.Scope c.Scope).1 = true := fun hb => hv ⟨hf, hb⟩
      rw [update_loop_cons_match m d projID c v rest hf]
      simpa [hb] using hrest
    · rw [update_loop_cons_skip m d projID c v rest hf]
      exact hrest

theorem create_loop_none (m : Client) (d : ResourceData) (projID : String) (c : Variable)
    (l : List Variable) (hno : ∀ R ∈ l, ¬ qualifies m R c)
    (herr : ∀ R ∈ l, fieldsMatch R c → (m.Variables.MatchesScope R.Scope c.Scope).2 = none) :
    (resourceVariableCreate_loop m d projID c l).d = d.SetId constEmptyString ∧
      (resourceVariableCreate_loop m d projID c l).diags
        = some (Diagnostic.Errorf ("unable to locate variable in project " ++ projID)) := by
  induction l with
  | nil => simp [resourceVariableCreate_loop]
  | cons v rest ih =>
    have hv : ¬ qualifies m v c := hno v (List.mem_cons_self _ _)
    have hrest := ih (fun R hR => hno R (List.mem_cons_of_mem _ hR))
      (fun R hR => herr R (List.mem_cons_of_mem _ hR))
    by_cases hf : fieldsMatch v c
    · have hb : ¬ (m.Variables.MatchesScope v.Scope c.Scope).1 = true := fun hb => hv ⟨hf, hb⟩
      have h2 := herr v (List.mem_cons_self _ _) hf
      rw [create_loop_cons_match m d projID c v rest hf]
      rcases hms : m.Variables.MatchesScope v.Scope c.Scope with ⟨b, e⟩
      rw [hms] at hb h2
      simp only at hb h2
      subst h2
      simp only [Bool.not_eq_true] at hb
      subst hb
      simpa using hrest
    · rw [create_loop_cons_skip m d projID c v rest hf]
      exact hrest

/-! ## The branches of variable create and update -/

theorem create_of_invalid (x : Externals) (m : Client) (d : ResourceData) (err : Diagnostic)
    (hv : validateVariable d = some err) :
    resourceVariableCreate x m d = withMutex { d := d, diags := some err, trace := [] } := by
  simp only [resourceVariableCreate, hv]

theorem create_of_remote_error (x : Externals) (m : Client) (d : ResourceData) (e : GoError)
    (hv : validateVariable d = none)
    (ha : m.Variables.AddSingle (projectOf d) (buildVariableResource x d) = Except.error e) :
    resourceVariableCreate x m d
      = withMutex (Outcome.after
          (Event.VariablesAddSingle (projectOf d) (buildVariableResource x d))
          { d := d,
            diags := some (Diagnostic.FromErr (createResourceOperationError
              ErrorKind.errorCreatingVariable (buildVariableResource x d).Name e)),
            trace := [] }) := by
  unfold projectOf at ha
  simp only [resourceVariableCreate, hv, ha, projectOf]

theorem create_of_returned (x : Externals) (m : Client) (d : ResourceData) (tfVar : Variables)
    (hv : validateVariable d = none)
    (ha : m.Variables.AddSingle (projectOf d) (buildVariableResource x d) = Except.ok tfVar) :
    resourceVariableCreate x m d
      = withMutex (Outcome.after
          (Event.VariablesAddSingle (projectOf d) (buildVariableResource x d))
          (resourceVariableCreate_loop m d (projectOf d) (buildVariableResource x d)
            tfVar.Variables)) := by
  unfold projectOf at ha
  simp only [resourceVariableCreate, hv, ha, projectOf]

theorem update_of_invalid (x : Externals) (m : Client) (d : ResourceData) (err : Diagnostic)
    (hv : validateVariable d = some err) :
    resourceVariableUpdate x m d = withMutex { d := d, diags := some err, trace := [] } := by
  simp only [resourceVariableUpdate, hv]

theorem update_of_remote_error (x : Externals) (m : Client) (d : ResourceData) (e : GoError)
    (hv : validateVariable d = none)
    (ha : m.Variables.UpdateSingle (projectOf d) (updateCandidate x d) = Except.error e) :
    resourceVariableUpdate x m d
      = withMutex (Outcome.after
          (Event.VariablesUpdateSingle (projectOf d) (updateCandidate x d))
          { d := d,
            diags := some (Diagnostic.FromErr (createResourceOperationError
              ErrorKind.errorUpdatingVariable d.Id e)),
            trace := [] }) := by
  unfold projectOf updateCandidate at ha
  simp only [resourceVariableUpdate, hv, projectOf, updateCandidate]
  rw [ha]

theorem update_of_returned (x : Externals) (m : Client) (d : ResourceData)
    (updatedVars : Variables) (hv : validateVariable d = none)
    (ha : m.Variables.UpdateSingle (projectOf d) (updateCandidate x d) = Except.ok updatedVars) :
    resourceVariableUpdate x m d
      = withMutex (Outcome.after
          (Event.VariablesUpdateSingle (projectOf d) (updateCandidate x d))
          (resourceVariableUpdate_loop m d (projectOf d) (updateCandidate x d)
            updatedVars.Variables)) := by
  unfold projectOf updateCandidate at ha
  simp only [resourceVariableUpdate, hv, projectOf, updateCandidate]
  rw [ha]

/-! ## Lemmas on `strings.Split` -/

theorem splitChars_ne_nil (sep : Char) (l : List Char) : splitChars sep l ≠ [] := by
  induction l with
  | nil => simp [splitChars]
  | cons c cs ih =>
    unfold splitChars
    split
    · simp
    · split <;> simp

theorem splitChars_length (sep : Char) (l : List Char) :
    (splitChars sep l).length = l.count sep + 1 := by
  induction l with
  | nil => simp [splitChars]
  | cons c cs ih =>
    unfold splitChars
    by_cases h : c = sep
    · subst h
      simp [ih]
    · rw [if_neg h]
      cases hs : splitChars sep cs with
      | nil => exact absurd hs (splitChars_ne_nil sep cs)
      | cons piece pieces =>
        rw [hs] at ih
        simp only [List.length_cons] at ih ⊢
        rw [List.count_cons_of_ne (Ne.symm h)]
        exact ih

theorem splitChars_no_sep (sep : Char) (l : List Char) :
    ∀ piece ∈ splitChars sep l, sep ∉ piece := by
  induction l with
  | nil => simp [splitChars]
  | cons c cs ih =>
    unfold splitChars
    by_cases h : c = sep
    · subst h
      intro piece hp
      rw [if_pos rfl, List.mem_cons] at hp
      rcases hp with rfl | hp
      · simp
      · exact ih piece hp
    · rw [if_neg h]
      cases hs : splitChars sep cs with
      | nil => exact absurd hs (splitChars_ne_nil sep cs)
      | cons piece pieces =>
        rw [hs] at ih
        intro p hp
        simp only [List.mem_cons] at hp
        rcases hp with rfl | hp
        · intro hmem
          rcases List.mem_cons.mp hmem with heq | hmem
          · exact h heq.symm
          · exact ih piece (List.mem_cons_self _ _) hmem
        · exact ih p (List.mem_cons_of_mem _ hp)

theorem splitChars_two (sep : Char) (l a b : List Char) (h : splitChars sep l = [a, b]) :
    l = a ++ sep :: b := by
  induction l generalizing a with
  | nil => simp [splitChars] at h
  | cons c cs ih =>
    unfold splitChars at h
    by_cases hc : c = sep
    · subst hc
      rw [if_pos rfl] at h
      simp only [List.cons.injEq] at h
      obtain ⟨rfl, hb⟩ := h
      have hlen := splitChars_length c cs
      rw [hb] at hlen
      have hcount : cs.count c = 0 := by simpa using hlen.symm
      have hnot : c ∉ cs := List.count_eq_zero.mp hcount
      have : splitChars c cs = [cs] := by
        clear ih hb hlen hcount
        induction cs with
        | nil => rfl
        | cons e es ihe =>
          have hne : ¬ e = c := fun he => hnot (he ▸ List.mem_cons_self _ _)
          unfold splitChars
          rw [if_neg hne, ihe (fun hm => hnot (List.mem_cons_of_mem _ hm))]
      rw [this] at hb
      simp only [List.cons.injEq, and_true] at hb
      subst hb
      simp
    · rw [if_neg hc] at h
      cases hs : splitChars sep cs with
      | nil => exact absurd hs (splitChars_ne_nil sep cs)
      | cons piece pieces =>
        rw [hs] at h
        simp only [List.cons.injEq] at h
        obtain ⟨rfl, rfl⟩ := h
        rw [ih piece hs]
        simp

/-! ## Remote errors in the adapters that wrap them -/

/-- In the variable and trigger adapters (create, update, delete) and in the
Azure account adapter (create, update), when the remote client call returns an
error `e` the operation returns `diag.FromErr` of
`createResourceOperationError` applied to the operation kind, to the resource
name (create) or the tracked identifier (update, delete), and to `e`. -/
theorem sibling_adapters_wrap_errors (x : Externals) (m : Client) (d : ResourceData) (e : GoError) :
    (validateVariable d = none →
      m.Variables.AddSingle (projectOf d) (buildVariableResource x d) = Except.error e →
      (resourceVariableCreate x m d).diags = some (Diagnostic.FromErr
        (createResourceOperationError ErrorKind.errorCreatingVariable
          (buildVariableResource x d).Name e))) ∧
    (validateVariable d = none →
      m.Variables.UpdateSingle (projectOf d) (updateCandidate x d) = Except.error e →
      (resourceVariableUpdate x m d).diags = some (Diagnostic.FromErr
        (createResourceOperationError ErrorKind.errorUpdatingVariable d.Id e))) ∧
    (m.Variables.DeleteSingle (projectOf d) d.Id = Except.error e →
      (resourceVariableDelete m d).diags = some (Diagnostic.FromErr
        (createResourceOperationError ErrorKind.errorDeletingVariable d.Id e))) ∧
    (∀ t, buildProjectDeploymentTargetTriggerResource x d = Except.ok t →
      m.ProjectTriggers.Add t = Except.error e →
      (resourceProjectDeploymentTargetTriggerCreate x m d).diags = some (Diagnostic.FromErr
        (createResourceOperationError ErrorKind.errorCreatingProjectTrigger t.Name e))) ∧
    (∀ t, buildProjectDeploymentTargetTriggerResource x d = Except.ok t →
      m.ProjectTriggers.Update { t with ID := d.Id } = Except.error e →
      (resourceProjectDeploymentTargetTriggerUpdate x m d).diags = some (Diagnostic.FromErr
        (createResourceOperationError ErrorKind.errorUpdatingProjectTrigger d.Id e))) ∧
    (m.ProjectTriggers.DeleteByID d.Id = some e →
      (resourceProjectDeploymentTargetTriggerDelete m d).diags = some (Diagnostic.FromErr
        (createResourceOperationError ErrorKind.errorDeletingProjectTrigger d.Id e))) ∧
    (∀ a, buildAzureServicePrincipalResource x d = Except.ok a →
      m.Accounts.Add a = Except.error e →
      (resourceAzureServicePrincipalCreate x m d).diags = some (Diagnostic.FromErr
        (createResourceOperationError ErrorKind.errorCreatingAzureServicePrincipal a.Name e))) ∧
    (∀ a, buildAzureServicePrincipalResource x d = Except.ok a →
      m.Accounts.Update { a with ID := d.Id } = Except.error e →
      (resourceAzureServicePrincipalUpdate x m d).diags = some (Diagnostic.FromErr
        (createResourceOperationError ErrorKind.errorUpdatingAzureServicePrincipal d.Id e))) := by
  refine ⟨?_, ?_, ?_, ?_, ?_, ?_, ?_, ?_⟩
  · intro hv ha
    rw [create_of_remote_error x m d e hv ha]; rfl
  · intro hv ha
    rw [update_of_remote_error x m d e hv ha]; rfl
  · intro ha
    unfold projectOf at ha
    simp only [resourceVariableDelete, ha, withMutex_diags, Outcome.after_diags]
  · intro t hb ha
    simp only [resourceProjectDeploymentTargetTriggerCreate, hb, ha, Outcome.after_diags]
  · intro t hb ha
    simp only [resourceProjectDeploymentTargetTriggerUpdate, hb, Outcome.after_diags]
    rw [ha]
  · intro ha
    simp only [resourceProjectDeploymentTargetTriggerDelete, ha, Outcome.after_diags]
  · intro a hb ha
    simp only [resourceAzureServicePrincipalCreate, hb, ha, Outcome.after_diags]
  · intro a hb ha
    simp only [resourceAzureServicePrincipalUpdate, hb, Outcome.after_diags]
    rw [ha]



/-! ## The trigger builder on disallowed values -/

theorem build_trigger_error_of_groups (x : Externals) (d : ResourceData)
    (hok : (d.GetOk Key.constEventGroups).2 = true)
    (hbad : (x.validateAllSliceItemsInSlice
      (x.getSliceFromTerraformTypeList (d.GetOk Key.constEventGroups).1) validEventGroups).2
        = false) :
    ∃ err, buildProjectDeploymentTargetTriggerResource x d = Except.error err := by
  unfold buildProjectDeploymentTargetTriggerResource
  simp only [hok, hbad, if_true, Bool.not_false]
  exact ⟨_, rfl⟩

theorem build_trigger_error_of_categories (x : Externals) (d : ResourceData)
    (hok : (d.GetOk Key.constEventCategories).2 = true)
    (hbad : (x.validateAllSliceItemsInSlice
      (x.getSliceFromTerraformTypeList (d.GetOk Key.constEventCategories).1)
        validEventCategories).2 = false) :
    ∃ err, buildProjectDeploymentTargetTriggerResource x d = Except.error err := by
  unfold buildProjectDeploymentTargetTriggerResource
  simp only [hok, hbad, if_true, Bool.not_false]
  by_cases hg : (d.GetOk Key.constEventGroups).2 = true
  · by_cases hv : (x.validateAllSliceItemsInSlice
        (x.getSliceFromTerraformTypeList (d.GetOk Key.constEventGroups).1) validEventGroups).2
          = true
    · simp only [hg, hv, if_true, Bool.not_true]
      exact ⟨_, rfl⟩
    · simp only [Bool.not_eq_true] at hv
      simp only [hg, hv, if_true, Bool.not_false]
      exact ⟨_, rfl⟩
  · simp only [hg]
    exact ⟨_, rfl⟩

/-- The validation helper of `sampleExternals` answers `true` exactly when
every given item is among the valid values. -/
theorem sampleExternals_validates (scope : VariableScope) (given : Option (List String))
    (valid : List String) :
    ((sampleExternals scope).validateAllSliceItemsInSlice given valid).2 = true ↔
      ∀ a ∈ given.getD [], a ∈ valid := by
  simp only [sampleExternals]
  cases hf : (given.getD []).find? (fun a => !valid.contains a) with
  | none =>
    simp only [true_iff]
    intro a ha
    have := List.find?_eq_none.mp hf a ha
    simpa using this
  | some b =>
    simp only [Bool.false_eq_true, false_iff]
    intro hall
    have hb := List.find?_some hf
    have hmem := List.mem_of_find?_eq_some hf
    simp only [Bool.not_eq_true', List.contains_eq_any_beq, List.any_eq_false, beq_iff_eq] at hb
    exact hb b (hall b hmem) rfl

/-! ## The scope matcher of the spec -/

theorem sameSet_iff (xs ys : List String) :
    sameSet xs ys = true ↔ xs.toFinset = ys.toFinset := by
  simp only [sameSet, Bool.and_eq_true, List.all_eq_true, List.contains_iff_exists_mem_beq,
    beq_iff_eq, exists_eq_right']
  constructor
  · rintro ⟨h1, h2⟩
    ext a
    simp only [List.mem_toFinset]
    exact ⟨h1 a, h2 a⟩
  · intro h
    have hm : ∀ a, a ∈ xs ↔ a ∈ ys := fun a => by
      rw [← List.mem_toFinset, h, List.mem_toFinset]
    exact ⟨fun a ha => (hm a).mp ha, fun a ha => (hm a).mpr ha⟩


/-! ## Lemmas on the mutex and on runs -/

theorem eventsOf_append (i : Nat) (p q : List Step) :
    eventsOf i (p ++ q) = eventsOf i p ++ eventsOf i q := by
  simp [eventsOf]

theorem eventsOf_single (i : Nat) (s : Step) :
    eventsOf i [s] = if s.invocation = i then [s.event] else [] := by
  by_cases h : s.invocation = i <;> simp [eventsOf, h]

theorem mutexRun_append (l : Bool) (p q : List Step) :
    mutexRun l (p ++ q) = (mutexRun l p).bind (fun l' => mutexRun l' q) := by
  induction p generalizing l with
  | nil => rfl
  | cons s rest ih =>
    simp only [List.cons_append, mutexRun]
    cases mutexStep l s.event with
    | none => rfl
    | some l' => exact ih l'

/-- In a trace that is bracketed or free of the mutex, `Lock` can only be the
first step. -/
theorem lock_only_first (tr E : List Event) (htr : bracketed tr ∨ mutexFree tr)
    (hp : E ++ [Event.mutexLock] <+: tr) : E = [] := by
  rcases htr with ⟨body, rfl, hfree⟩ | hfree
  · cases E with
    | nil => rfl
    | cons e E' =>
      exfalso
      rw [List.cons_append, List.cons_prefix_cons] at hp
      have hmem : Event.mutexLock ∈ body ++ [Event.mutexUnlock] :=
        hp.2.subset (by simp)
      rcases List.mem_append.mp hmem with h | h
      · exact hfree.1 h
      · simp at h
  · exact absurd (hp.subset (by simp)) hfree.1

/-- In a bracketed trace, every step other than `Lock` comes after the `Lock`
and with no `Unlock` before it. -/
theorem after_lock_before_unlock (tr E : List Event) (ev : Event) (htr : bracketed tr)
    (hne : ev ≠ Event.mutexLock) (hp : E ++ [ev] <+: tr) :
    Event.mutexLock ∈ E ∧ Event.mutexUnlock ∉ E := by
  obtain ⟨body, rfl, hfree⟩ := htr
  cases E with
  | nil =>
    rw [List.nil_append, List.cons_prefix_cons] at hp
    exact absurd hp.1 hne
  | cons e E' =>
    rw [List.cons_append, List.cons_prefix_cons] at hp
    obtain ⟨rfl, hp⟩ := hp
    refine ⟨List.mem_cons_self _ _, ?_⟩
    have hlen : E'.length ≤ body.length := by
      have := hp.length_le
      simp only [List.length_append, List.length_singleton] at this
      omega
    have hE' : E' <+: body :=
      List.prefix_of_prefix_length_le ((List.prefix_append E' [ev]).trans hp)
        (List.prefix_append body [Event.mutexUnlock]) hlen
    intro hmem
    rcases List.mem_cons.mp hmem with h | h
    · cases h
    · exact hfree.2 (hE'.subset h)

theorem mutexStep_other (l : Bool) (ev : Event) (h1 : ev ≠ Event.mutexLock)
    (h2 : ev ≠ Event.mutexUnlock) : mutexStep l ev = some l := by
  cases ev <;> first | rfl | exact absurd rfl h1 | exact absurd rfl h2

theorem holdsMutex_step (job : Nat → List Event)
    (hjob : ∀ i, bracketed (job i) ∨ mutexFree (job i)) (p : List Step) (s : Step)
    (hpre : ∀ i, eventsOf i (p ++ [s]) <+: job i) (i : Nat) :
    (s.invocation ≠ i → (holdsMutex i (p ++ [s]) ↔ holdsMutex i p)) ∧
    (s.invocation = i → s.event = Event.mutexLock →
      ¬ holdsMutex i p ∧ holdsMutex i (p ++ [s])) ∧
    (s.invocation = i → s.event = Event.mutexUnlock →
      holdsMutex i p ∧ ¬ holdsMutex i (p ++ [s])) ∧
    (s.invocation = i → s.event ≠ Event.mutexLock → s.event ≠ Event.mutexUnlock →
      (holdsMutex i (p ++ [s]) ↔ holdsMutex i p)) := by
  have hi := hpre i
  rw [eventsOf_append, eventsOf_single] at hi
  refine ⟨fun hne => ?_, fun heq hev => ?_, fun heq hev => ?_, fun heq h1 h2 => ?_⟩
  · simp [holdsMutex, eventsOf_append, eventsOf_single, hne]
  · rw [if_pos heq, hev] at hi
    have hE := lock_only_first (job i) _ (hjob i) hi
    simp [holdsMutex, eventsOf_append, eventsOf_single, heq, hev, hE]
  · rw [if_pos heq, hev] at hi
    have hb : bracketed (job i) := by
      rcases hjob i with hb | hf
      · exact hb
      · exact absurd (hi.subset (by simp)) hf.2
    have := after_lock_before_unlock (job i) _ _ hb (by simp) hi
    refine ⟨this, ?_⟩
    simp [holdsMutex, eventsOf_append, eventsOf_single, heq, hev]
  · simp only [holdsMutex, eventsOf_append, eventsOf_single, heq, if_true, List.mem_append,
      List.mem_singleton]
    constructor
    · rintro ⟨h | h, hn⟩
      · exact ⟨h, fun hu => hn (Or.inl hu)⟩
      · exact absurd h.symm h1
    · rintro ⟨h, hn⟩
      refine ⟨Or.inl h, ?_⟩
      rintro (hu | hu)
      · exact hn hu
      · exact h2 hu.symm

/-- In a run of operations whose traces are bracketed or free of the mutex,
the mutex is locked exactly when some invocation is between its `Lock` and its
`Unlock`, and at most one invocation is. -/
theorem mutex_invariant (job : Nat → List Event)
    (hjob : ∀ i, bracketed (job i) ∨ mutexFree (job i)) (run : List Step) :
    (∀ i, eventsOf i run <+: job i) → ∀ l, mutexRun false run = some l →
      ((l = true ↔ ∃ i, holdsMutex i run) ∧
        ∀ i j, holdsMutex i run → holdsMutex j run → i = j) := by
  induction run using List.reverseRecOn with
  | nil =>
    intro _ l hl
    simp only [mutexRun, Option.some.injEq] at hl
    subst hl
    simp [holdsMutex, eventsOf]
  | append_singleton p s ih =>
    intro hpre l hl
    have hprep : ∀ i, eventsOf i p <+: job i := fun i =>
      (by rw [eventsOf_append]; exact List.prefix_append _ _ : eventsOf i p <+: eventsOf i (p ++ [s])).trans
        (hpre i)
    rw [mutexRun_append] at hl
    cases hp : mutexRun false p with
    | none => rw [hp] at hl; simp at hl
    | some l0 =>
      rw [hp] at hl
      simp only [Option.some_bind, mutexRun] at hl
      obtain ⟨hiff, huniq⟩ := ih hprep l0 hp
      have hstep := holdsMutex_step job hjob p s hpre
      by_cases hlock : s.event = Event.mutexLock
      · -- the mutex was unlocked, so nobody held it
        rw [hlock] at hl
        cases l0 with
        | true => simp [mutexStep] at hl
        | false =>
          simp only [mutexStep, Option.some.injEq] at hl
          subst hl
          have hnone : ∀ i, ¬ holdsMutex i p := fun i hi => by
            have := hiff.mpr ⟨i, hi⟩
            simp at this
          have honly : ∀ i, holdsMutex i (p ++ [s]) → i = s.invocation := by
            intro i hi
            by_contra hne
            exact hnone i (((hstep i).1 (fun h => hne h.symm)).mp hi)
          refine ⟨⟨fun _ => ⟨s.invocation, ((hstep _).2.1 rfl hlock).2⟩, fun _ => rfl⟩, ?_⟩
          intro i j hi hj
          rw [honly i hi, honly j hj]
      · by_cases hunlock : s.event = Event.mutexUnlock
        · rw [hunlock] at hl
          cases l0 with
          | false => simp [mutexStep] at hl
          | true =>
            simp only [mutexStep, Option.some.injEq] at hl
            subst hl
            have hheld := ((hstep s.invocation).2.2.1 rfl hunlock)
            have hnobody : ∀ i, ¬ holdsMutex i (p ++ [s]) := by
              intro i hi
              by_cases hne : s.invocation = i
              · subst hne
                exact hheld.2 hi
              · have hip := ((hstep i).1 hne).mp hi
                exact hne (huniq _ _ hheld.1 hip)
            refine ⟨⟨fun h => by simp at h, fun ⟨i, hi⟩ => absurd hi (hnobody i)⟩, ?_⟩
            intro i j hi _
            exact absurd hi (hnobody i)
        · have hsame : mutexStep l0 s.event = some l0 :=
            mutexStep_other l0 s.event hlock hunlock
          rw [hsame] at hl
          simp only [Option.some.injEq] at hl
          subst hl
          have heqv : ∀ i, holdsMutex i (p ++ [s]) ↔ holdsMutex i p := by
            intro i
            by_cases hne : s.invocation = i
            · exact (hstep i).2.2.2 hne hlock hunlock
            · exact (hstep i).1 hne
          refine ⟨?_, ?_⟩
          · rw [hiff]
            exact ⟨fun ⟨i, hi⟩ => ⟨i, (heqv i).mpr hi⟩, fun ⟨i, hi⟩ => ⟨i, (heqv i).mp hi⟩⟩
          · intro i j hi hj
            exact huniq i j ((heqv i).mp hi) ((heqv j).mp hj)


/-! ## The traces of the variable operations -/

theorem create_loop_trace (m : Client) (d : ResourceData) (projID : String) (c : Variable)
    (l : List Variable) :
    ∀ ev ∈ (resourceVariableCreate_loop m d projID c l).trace,
      ∃ a b, ev = Event.VariablesMatchesScope a b := by
  induction l with
  | nil => simp [resourceVariableCreate_loop]
  | cons v rest ih =>
    by_cases hf : fieldsMatch v c
    · rw [create_loop_cons_match m d projID c v rest hf]
      intro ev hev
      rw [Outcome.after_trace, List.mem_cons] at hev
      rcases hev with rfl | hev
      · exact ⟨_, _, rfl⟩
      · rcases hms : m.Variables.MatchesScope v.Scope c.Scope with ⟨b, e⟩
        rw [hms] at hev
        cases e with
        | some err => simp at hev
        | none =>
          cases b with
          | true => simp at hev
          | false => exact ih ev (by simpa using hev)
    · rw [create_loop_cons_skip m d projID c v rest hf]
      exact ih

theorem update_loop_trace (m : Client) (d : ResourceData) (projID : String) (c : Variable)
    (l : List Variable) :
    ∀ ev ∈ (resourceVariableUpdate_loop m d projID c l).trace,
      ∃ a b, ev = Event.VariablesMatchesScope a b := by
  induction l with
  | nil => simp [resourceVariableUpdate_loop]
  | cons v rest ih =>
    by_cases hf : fieldsMatch v c
    · rw [update_loop_cons_match m d projID c v rest hf]
      intro ev hev
      rw [Outcome.after_trace, List.mem_cons] at hev
      rcases hev with rfl | hev
      · exact ⟨_, _, rfl⟩
      · by_cases hb : (m.Variables.MatchesScope v.Scope c.Scope).1 = true
        · simp [hb] at hev
        · exact ih ev (by simpa [hb] using hev)
    · rw [update_loop_cons_skip m d projID c v rest hf]
      exact ih

theorem mutexFree_of_matches (tr : List Event)
    (h : ∀ ev ∈ tr, ∃ a b, ev = Event.VariablesMatchesScope a b) : mutexFree tr := by
  constructor
  · intro hm
    obtain ⟨a, b, hab⟩ := h _ hm
    cases hab
  · intro hm
    obtain ⟨a, b, hab⟩ := h _ hm
    cases hab

theorem bracketed_withMutex (o : Outcome) (h : mutexFree o.trace) :
    bracketed (withMutex o).trace :=
  ⟨o.trace, rfl, h⟩

theorem mutexFree_after (ev : Event) (o : Outcome) (h1 : ev ≠ Event.mutexLock)
    (h2 : ev ≠ Event.mutexUnlock) (h : mutexFree o.trace) :
    mutexFree (Outcome.after ev o).trace := by
  constructor
  · intro hm
    rcases List.mem_cons.mp hm with he | he
    · exact h1 he.symm
    · exact h.1 he
  · intro hm
    rcases List.mem_cons.mp hm with he | he
    · exact h2 he.symm
    · exact h.2 he

theorem create_trace_bracketed (x : Externals) (m : Client) (d : ResourceData) :
    bracketed (resourceVariableCreate x m d).trace := by
  cases hv : validateVariable d with
  | some err =>
    rw [create_of_invalid x m d err hv]
    exact bracketed_withMutex _ ⟨by simp, by simp⟩
  | none =>
    cases ha : m.Variables.AddSingle (projectOf d) (buildVariableResource x d) with
    | error e =>
      rw [create_of_remote_error x m d e hv ha]
      exact bracketed_withMutex _ (mutexFree_after _ _ (by simp) (by simp) ⟨by simp, by simp⟩)
    | ok tfVar =>
      rw [create_of_returned x m d tfVar hv ha]
      exact bracketed_withMutex _ (mutexFree_after _ _ (by simp) (by simp)
        (mutexFree_of_matches _ (create_loop_trace m d _ _ _)))

theorem update_trace_bracketed (x : Externals) (m : Client) (d : ResourceData) :
    bracketed (resourceVariableUpdate x m d).trace := by
  cases hv : validateVariable d with
  | some err =>
    rw [update_of_invalid x m d err hv]
    exact bracketed_withMutex _ ⟨by simp, by simp⟩
  | none =>
    cases ha : m.Variables.UpdateSingle (projectOf d) (updateCandidate x d) with
    | error e =>
      rw [update_of_remote_error x m d e hv ha]
      exact bracketed_withMutex _ (mutexFree_after _ _ (by simp) (by simp) ⟨by simp, by simp⟩)
    | ok updatedVars =>
      rw [update_of_returned x m d updatedVars hv ha]
      exact bracketed_withMutex _ (mutexFree_after _ _ (by simp) (by simp)
        (mutexFree_of_matches _ (update_loop_trace m d _ _ _)))

theorem delete_trace_bracketed (m : Client) (d : ResourceData) :
    bracketed (resourceVariableDelete m d).trace := by
  unfold resourceVariableDelete
  refine bracketed_withMutex _ (mutexFree_after _ _ (by simp) (by simp) ?_)
  cases m.Variables.DeleteSingle (d.Get Key.constProjectID).asString d.Id <;>
    exact ⟨by simp, by simp⟩

theorem read_trace_mutexFree (m : Client) (d : ResourceData) :
    mutexFree (resourceVariableRead m d).trace := by
  unfold resourceVariableRead
  refine mutexFree_after _ _ (by simp) (by simp) ?_
  rcases m.Variables.GetByID (d.Get Key.constProjectID).asString d.Id with e | r
  · exact ⟨by simp, by simp⟩
  · cases r <;> exact ⟨by simp, by simp⟩

theorem mutation_trace_bracketed (tr : List Event) (h : isVariableMutationTrace tr) :
    bracketed tr := by
  obtain ⟨x, m, d, h | h | h⟩ := h
  · rw [h]; exact create_trace_bracketed x m d
  · rw [h]; exact update_trace_bracketed x m d
  · rw [h]; exact delete_trace_bracketed m d

theorem operation_trace_shape (tr : List Event) (h : isVariableOperationTrace tr) :
    bracketed tr ∨ mutexFree tr := by
  rcases h with h | ⟨m, d, h⟩
  · exact Or.inl (mutation_trace_bracketed tr h)
  · rw [h]; exact Or.inr (read_trace_mutexFree m d)


/-- The sample run is a run of the sample operations. -/
theorem sampleRun_isRun : isRun sampleJob sampleRun := by
  refine ⟨fun i => ?_, by decide⟩
  match i with
  | 0 => decide
  | 1 => decide
  | 2 => decide
  | n + 3 => simp [eventsOf, sampleRun]


/-! ## The create loop on a matcher error, and the two loops side by side -/

theorem create_loop_abort (m : Client) (d : ResourceData) (projID : String) (c : Variable)
    (pre : List Variable) (R : Variable) (post : List Variable) (e : GoError)
    (hpre : ∀ v ∈ pre, fieldsMatch v c →
      m.Variables.MatchesScope v.Scope c.Scope = (false, none))
    (hf : fieldsMatch R c) (he : (m.Variables.MatchesScope R.Scope c.Scope).2 = some e) :
    (resourceVariableCreate_loop m d projID c (pre ++ R :: post)).d = d ∧
    (resourceVariableCreate_loop m d projID c (pre ++ R :: post)).diags
      = some (Diagnostic.FromErr e) ∧
    (resourceVariableCreate_loop m d projID c (pre ++ R :: post)).trace
      = matchesEvents (pre.filter (fun v => decide (fieldsMatch v c)) ++ [R]) c := by
  induction pre with
  | nil =>
    rw [List.nil_append, create_loop_cons_match m d projID c R post hf]
    rcases hms : m.Variables.MatchesScope R.Scope c.Scope with ⟨b, e'⟩
    rw [hms] at he
    simp only at he
    subst he
    simp [matchesEvents]
  | cons v rest ih =>
    have hrest := ih (fun w hw => hpre w (List.mem_cons_of_mem _ hw))
    by_cases hv : fieldsMatch v c
    · rw [List.cons_append, create_loop_cons_match m d projID c v _ hv,
        hpre v (List.mem_cons_self _ _) hv]
      simp only [Bool.false_eq_true, if_false, Outcome.after_d, Outcome.after_diags,
        Outcome.after_trace, hrest.1, hrest.2.1, hrest.2.2]
      simp [matchesEvents, List.filter_cons, hv]
    · rw [List.cons_append, create_loop_cons_skip m d projID c v _ hv]
      simp only [hrest.1, hrest.2.1, hrest.2.2]
      simp [matchesEvents, List.filter_cons, hv]

theorem loops_agree (m : Client) (d : ResourceData) (projID : String) (c : Variable)
    (l : List Variable) (h : ∀ a b, (m.Variables.MatchesScope a b).2 = none) :
    resourceVariableCreate_loop m d projID c l = resourceVariableUpdate_loop m d projID c l := by
  induction l with
  | nil => rfl
  | cons v rest ih =>
    by_cases hf : fieldsMatch v c
    · rw [create_loop_cons_match m d projID c v rest hf,
        update_loop_cons_match m d projID c v rest hf, ih]
      have he := h v.Scope c.Scope
      rcases hms : m.Variables.MatchesScope v.Scope c.Scope with ⟨b, e⟩
      rw [hms] at he
      simp only at he
      subst he
      rfl
    · rw [create_loop_cons_skip m d projID c v rest hf,
        update_loop_cons_skip m d projID c v rest hf, ih]

/-! ## The claims -/

/-- C1. Reconciliation in `resourceVariableCreate` and `resourceVariableUpdate`
is sound: whenever the operation succeeds (returns no diagnostics), the remote
call answered with a collection, and the tracked identifier is the ID of a
record `R` of that collection whose Name, Type, Description and IsSensitive
equal the candidate's, whose Value equals the candidate's unless `R` is
sensitive, and for whose scope the scope matcher answered `true`. -/
theorem variable_reconciliation_sound (x : Externals) (m : Client) (d : ResourceData) :
    ((resourceVariableCreate x m d).diags = none →
      ∃ tfVar, m.Variables.AddSingle (projectOf d) (buildVariableResource x d)
          = Except.ok tfVar ∧
        ∃ R ∈ tfVar.Variables, (resourceVariableCreate x m d).d.Id = R.ID ∧
          R.Name = (buildVariableResource x d).Name ∧
          R.Type_ = (buildVariableResource x d).Type_ ∧
          R.Description = (buildVariableResource x d).Description ∧
          R.IsSensitive = (buildVariableResource x d).IsSensitive ∧
          (R.IsSensitive = true ∨ R.Value = (buildVariableResource x d).Value) ∧
          (m.Variables.MatchesScope R.Scope (buildVariableResource x d).Scope).1 = true) ∧
    ((resourceVariableUpdate x m d).diags = none →
      ∃ updatedVars, m.Variables.UpdateSingle (projectOf d) (updateCandidate x d)
          = Except.ok updatedVars ∧
        ∃ R ∈ updatedVars.Variables, (resourceVariableUpdate x m d).d.Id = R.ID ∧
          R.Name = (updateCandidate x d).Name ∧
          R.Type_ = (updateCandidate x d).Type_ ∧
          R.Description = (updateCandidate x d).Description ∧
          R.IsSensitive = (updateCandidate x d).IsSensitive ∧
          (R.IsSensitive = true ∨ R.Value = (updateCandidate x d).Value) ∧
          (m.Variables.MatchesScope R.Scope (updateCandidate x d).Scope).1 = true) := by
  constructor
  · intro h
    cases hv : validateVariable d with
    | some err => rw [create_of_invalid x m d err hv] at h; simp at h
    | none =>
      cases ha : m.Variables.AddSingle (projectOf d) (buildVariableResource x d) with
      | error e => rw [create_of_remote_error x m d e hv ha] at h; simp at h
      | ok tfVar =>
        rw [create_of_returned x m d tfVar hv ha] at h ⊢
        obtain ⟨R, hR, hd, ⟨hf, hs⟩, _⟩ := create_loop_sound m d _ _ _ h
        refine ⟨tfVar, rfl, R, hR, ?_, hf.1, hf.2.1, hf.2.2.1, hf.2.2.2.1, hf.2.2.2.2, hs⟩
        simp only [withMutex_d, Outcome.after_d, hd]
        rfl
  · intro h
    cases hv : validateVariable d with
    | some err => rw [update_of_invalid x m d err hv] at h; simp at h
    | none =>
      cases ha : m.Variables.UpdateSingle (projectOf d) (updateCandidate x d) with
      | error e => rw [update_of_remote_error x m d e hv ha] at h; simp at h
      | ok updatedVars =>
        rw [update_of_returned x m d updatedVars hv ha] at h ⊢
        obtain ⟨R, hR, hd, ⟨hf, hs⟩⟩ := update_loop_sound m d _ _ _ h
        refine ⟨updatedVars, rfl, R, hR, ?_, hf.1, hf.2.1, hf.2.2.1, hf.2.2.2.1, hf.2.2.2.2, hs⟩
        simp only [withMutex_d, Outcome.after_d, hd]
        rfl

/-- Witness of C1: the `Port` variable of project `Projects-1`, created and
updated against a collection holding one equal record `Variables-7`: both
operations succeed and track `Variables-7`. -/
theorem variable_reconciliation_sound_witness :
    (resourceVariableCreate (sampleExternals scopeEnv1)
      (projectClient [portRecord "Variables-7" scopeEnv1] equivalentMatcher) portData).diags = none ∧
    (resourceVariableUpdate (sampleExternals scopeEnv1)
      (projectClient [portRecord "Variables-7" scopeEnv1] equivalentMatcher) portData).diags = none ∧
    (resourceVariableCreate (sampleExternals scopeEnv1)
      (projectClient [portRecord "Variables-7" scopeEnv1] equivalentMatcher) portData).d.Id
        = "Variables-7" ∧
    (resourceVariableUpdate (sampleExternals scopeEnv1)
      (projectClient [portRecord "Variables-7" scopeEnv1] equivalentMatcher) portData).d.Id
        = "Variables-7" := by
  have h := variable_reconciliation_sound (sampleExternals scopeEnv1)
    (projectClient [portRecord "Variables-7" scopeEnv1] equivalentMatcher) portData
  obtain ⟨tf1, h1, R1, hR1, hid1, _⟩ := h.1 (by decide)
  obtain ⟨tf2, h2, R2, hR2, hid2, _⟩ := h.2 (by decide)
  have e1 : tf1.Variables = [portRecord "Variables-7" scopeEnv1] := by
    have := Except.ok.inj h1
    rw [← this]
  have e2 : tf2.Variables = [portRecord "Variables-7" scopeEnv1] := by
    have := Except.ok.inj h2
    rw [← this]
  rw [e1, List.mem_singleton] at hR1
  rw [e2, List.mem_singleton] at hR2
  subst hR1 hR2
  exact ⟨by decide, by decide, hid1, hid2⟩

/-- C2, counterexample. Against a collection whose records 1 and 2 both satisfy
the full selection predicate and whose record 0 passes the field comparison
but makes the scope matcher report an error, `resourceVariableCreate` does not
set the tracked identifier to `Variables-2`, the ID of the qualifying record
with the smallest index: it returns the matcher's error and leaves the
identifier as it was. -/
theorem create_first_match_counterexample :
    qualifies (projectClient (duplicatePorts scopeBroken) brokenEnvironmentMatcher)
        (portRecord "Variables-2" scopeEnv1)
        (buildVariableResource (sampleExternals scopeEnv1) portData) ∧
    qualifies (projectClient (duplicatePorts scopeBroken) brokenEnvironmentMatcher)
        (portRecord "Variables-3" scopeEnv1)
        (buildVariableResource (sampleExternals scopeEnv1) portData) ∧
    ¬ qualifies (projectClient (duplicatePorts scopeBroken) brokenEnvironmentMatcher)
        (portRecord "Variables-1" scopeBroken)
        (buildVariableResource (sampleExternals scopeEnv1) portData) ∧
    (resourceVariableCreate (sampleExternals scopeEnv1)
        (projectClient (duplicatePorts scopeBroken) brokenEnvironmentMatcher) portData).d.Id
      ≠ "Variables-2" ∧
    (resourceVariableCreate (sampleExternals scopeEnv1)
        (projectClient (duplicatePorts scopeBroken) brokenEnvironmentMatcher) portData).diags
      = some (Diagnostic.FromErr (GoError.external "scope lookup failed")) := by
  decide

/-- C2, amended. First match wins: when validation passes, the remote call
answers with a collection, and `R` at index `i` is the record of smallest
index that satisfies the full selection predicate, `resourceVariableUpdate`
succeeds and sets the tracked identifier to `R.ID` (whatever identifier it
sent), and `resourceVariableCreate` does the same provided the scope matcher
reports no error for the field-matching records at indices up to `i`. Both
are functions of their inputs, so a rerun gives the same result. -/
theorem variable_reconciliation_first_match (x : Externals) (m : Client) (d : ResourceData)
    (hv : validateVariable d = none) (i : Nat) (R : Variable) :
    (∀ tfVar, m.Variables.AddSingle (projectOf d) (buildVariableResource x d) = Except.ok tfVar →
      tfVar.Variables[i]? = some R →
      qualifies m R (buildVariableResource x d) →
      (∀ j R', j < i → tfVar.Variables[j]? = some R' →
        ¬ qualifies m R' (buildVariableResource x d)) →
      (∀ j R', j ≤ i → tfVar.Variables[j]? = some R' →
        fieldsMatch R' (buildVariableResource x d) →
        (m.Variables.MatchesScope R'.Scope (buildVariableResource x d).Scope).2 = none) →
      (resourceVariableCreate x m d).d.Id = R.ID ∧ (resourceVariableCreate x m d).diags = none) ∧
    (∀ updatedVars,
      m.Variables.UpdateSingle (projectOf d) (updateCandidate x d) = Except.ok updatedVars →
      updatedVars.Variables[i]? = some R →
      qualifies m R (updateCandidate x d) →
      (∀ j R', j < i → updatedVars.Variables[j]? = some R' →
        ¬ qualifies m R' (updateCandidate x d)) →
      (resourceVariableUpdate x m d).d.Id = R.ID ∧ (resourceVariableUpdate x m d).diags = none) := by
  constructor
  · intro tfVar ha hi hq hmin herr
    rw [create_of_returned x m d tfVar hv ha]
    obtain ⟨h1, h2⟩ := create_loop_first m d (projectOf d) _ _ i R hi hq hmin herr
    simp only [withMutex_d, withMutex_diags, Outcome.after_d, Outcome.after_diags, h1, h2]
    exact ⟨rfl, trivial⟩
  · intro updatedVars ha hi hq hmin
    rw [update_of_returned x m d updatedVars hv ha]
    obtain ⟨h1, h2⟩ := update_loop_first m d (projectOf d) _ _ i R hi hq hmin
    simp only [withMutex_d, withMutex_diags, Outcome.after_d, Outcome.after_diags, h1, h2]
    exact ⟨rfl, trivial⟩

/-- Witness of C2: with the duplicates `Variables-2` and `Variables-3` behind a
record of another scope, create and update both track `Variables-2`; the
update had sent `Variables-3`. -/
theorem variable_reconciliation_first_match_witness :
    portData.Id = "Variables-3" ∧
    ((resourceVariableCreate (sampleExternals scopeEnv1)
        (projectClient (duplicatePorts scopeEnv2) equivalentMatcher) portData).d.Id = "Variables-2" ∧
      (resourceVariableCreate (sampleExternals scopeEnv1)
        (projectClient (duplicatePorts scopeEnv2) equivalentMatcher) portData).diags = none) ∧
    ((resourceVariableUpdate (sampleExternals scopeEnv1)
        (projectClient (duplicatePorts scopeEnv2) equivalentMatcher) portData).d.Id = "Variables-2" ∧
      (resourceVariableUpdate (sampleExternals scopeEnv1)
        (projectClient (duplicatePorts scopeEnv2) equivalentMatcher) portData).diags = none) := by
  have h := variable_reconciliation_first_match (sampleExternals scopeEnv1)
    (projectClient (duplicatePorts scopeEnv2) equivalentMatcher) portData (by decide) 1
    (portRecord "Variables-2" scopeEnv1)
  refine ⟨rfl, ?_, ?_⟩
  · refine h.1 { Variables := duplicatePorts scopeEnv2 } rfl rfl (by decide) ?_ ?_
    · intro j R' hj hR'
      obtain rfl : j = 0 := by omega
      obtain rfl : portRecord "Variables-1" scopeEnv2 = R' := by simpa [duplicatePorts] using hR'
      decide
    · intro j R' _ _ _
      rfl
  · refine h.2 { Variables := duplicatePorts scopeEnv2 } rfl rfl (by decide) ?_
    intro j R' hj hR'
    obtain rfl : j = 0 := by omega
    obtain rfl : portRecord "Variables-1" scopeEnv2 = R' := by simpa [duplicatePorts] using hR'
    decide

/-- C3. Reconciliation fails exactly when nothing qualifies: when validation
passes, the scope matcher reports no error and the remote call answers with a
collection, create and update return diagnostics if and only if no returned
record satisfies the selection predicate, and then the tracked identifier is
the empty string. -/
theorem variable_reconciliation_fails_iff (x : Externals) (m : Client) (d : ResourceData)
    (hv : validateVariable d = none)
    (herr : ∀ a b, (m.Variables.MatchesScope a b).2 = none) :
    (∀ tfVar, m.Variables.AddSingle (projectOf d) (buildVariableResource x d) = Except.ok tfVar →
      ((resourceVariableCreate x m d).diags ≠ none ↔
        ∀ R ∈ tfVar.Variables, ¬ qualifies m R (buildVariableResource x d)) ∧
      ((resourceVariableCreate x m d).diags ≠ none →
        (resourceVariableCreate x m d).d.Id = "")) ∧
    (∀ updatedVars,
      m.Variables.UpdateSingle (projectOf d) (updateCandidate x d) = Except.ok updatedVars →
      ((resourceVariableUpdate x m d).diags ≠ none ↔
        ∀ R ∈ updatedVars.Variables, ¬ qualifies m R (updateCandidate x d)) ∧
      ((resourceVariableUpdate x m d).diags ≠ none →
        (resourceVariableUpdate x m d).d.Id = "")) := by
  constructor
  · intro tfVar ha
    rw [create_of_returned x m d tfVar hv ha]
    simp only [withMutex_d, withMutex_diags, Outcome.after_d, Outcome.after_diags]
    have hiff : (resourceVariableCreate_loop m d (projectOf d) (buildVariableResource x d)
          tfVar.Variables).diags ≠ none ↔
        ∀ R ∈ tfVar.Variables, ¬ qualifies m R (buildVariableResource x d) := by
      constructor
      · intro hne R hR hq
        obtain ⟨i, hi⟩ := List.getElem?_of_mem hR
        by_cases hex : ∃ j, j ≤ i ∧ ∃ R', tfVar.Variables[j]? = some R' ∧
            qualifies m R' (buildVariableResource x d)
        · obtain ⟨hk, hkmin⟩ := Nat.find_spec hex, @Nat.find_min _ _ hex
          obtain ⟨_, R', hR', hq'⟩ := hk
          have := create_loop_first m d (projectOf d) (buildVariableResource x d)
            tfVar.Variables (Nat.find hex) R' hR' hq'
            (fun j S hj hS hqS =>
              hkmin hj ⟨le_trans (le_of_lt hj) (Nat.find_spec hex).1, S, hS, hqS⟩)
            (fun _ S _ _ _ => herr S.Scope _)
          exact hne this.2
        · exact hex ⟨i, le_refl i, R, hi, hq⟩
      · intro hno hnone
        obtain ⟨R, hR, _, hq, _⟩ := create_loop_sound m d _ _ _ hnone
        exact hno R hR hq
    refine ⟨hiff, fun hne => ?_⟩
    rw [(create_loop_none m d (projectOf d) _ _ (hiff.mp hne)
      (fun R _ _ => herr R.Scope _)).1]
    rfl
  · intro updatedVars ha
    rw [update_of_returned x m d updatedVars hv ha]
    simp only [withMutex_d, withMutex_diags, Outcome.after_d, Outcome.after_diags]
    have hiff : (resourceVariableUpdate_loop m d (projectOf d) (updateCandidate x d)
          updatedVars.Variables).diags ≠ none ↔
        ∀ R ∈ updatedVars.Variables, ¬ qualifies m R (updateCandidate x d) := by
      constructor
      · intro hne R hR hq
        obtain ⟨i, hi⟩ := List.getElem?_of_mem hR
        by_cases hex : ∃ j, j ≤ i ∧ ∃ R', updatedVars.Variables[j]? = some R' ∧
            qualifies m R' (updateCandidate x d)
        · obtain ⟨hk, hkmin⟩ := Nat.find_spec hex, @Nat.find_min _ _ hex
          obtain ⟨_, R', hR', hq'⟩ := hk
          have := update_loop_first m d (projectOf d) (updateCandidate x d)
            updatedVars.Variables (Nat.find hex) R' hR' hq'
            (fun j S hj hS hqS =>
              hkmin hj ⟨le_trans (le_of_lt hj) (Nat.find_spec hex).1, S, hS, hqS⟩)
          exact hne this.2
        · exact hex ⟨i, le_refl i, R, hi, hq⟩
      · intro hno hnone
        obtain ⟨R, hR, _, hq⟩ := update_loop_sound m d _ _ _ hnone
        exact hno R hR hq
    refine ⟨hiff, fun hne => ?_⟩
    rw [(update_loop_none m d (projectOf d) _ _ (hiff.mp hne)).1]
    rfl

/-- Witness of C3, on the claim's own inputs: the candidate `Port` / `String` /
`8080`, not sensitive, scoped to `Env-1`, fails with a cleared identifier
against a record that is equal but scoped to `Env-2`, and succeeds against a
record that is equal in scope too. -/
theorem variable_reconciliation_fails_iff_witness :
    ((resourceVariableCreate (sampleExternals scopeEnv1)
        (projectClient [portRecord "Variables-7" scopeEnv2] equivalentMatcher) portData).diags ≠ none ∧
      (resourceVariableCreate (sampleExternals scopeEnv1)
        (projectClient [portRecord "Variables-7" scopeEnv2] equivalentMatcher) portData).d.Id = "") ∧
    ((resourceVariableUpdate (sampleExternals scopeEnv1)
        (projectClient [portRecord "Variables-7" scopeEnv2] equivalentMatcher) portData).diags ≠ none ∧
      (resourceVariableUpdate (sampleExternals scopeEnv1)
        (projectClient [portRecord "Variables-7" scopeEnv2] equivalentMatcher) portData).d.Id = "") ∧
    (resourceVariableCreate (sampleExternals scopeEnv1)
        (projectClient [portRecord "Variables-7" scopeEnv1] equivalentMatcher) portData).diags = none ∧
    (resourceVariableUpdate (sampleExternals scopeEnv1)
        (projectClient [portRecord "Variables-7" scopeEnv1] equivalentMatcher) portData).diags = none := by
  have h2 := variable_reconciliation_fails_iff (sampleExternals scopeEnv1)
    (projectClient [portRecord "Variables-7" scopeEnv2] equivalentMatcher) portData
    (by decide) (fun _ _ => rfl)
  have h1 := variable_reconciliation_fails_iff (sampleExternals scopeEnv1)
    (projectClient [portRecord "Variables-7" scopeEnv1] equivalentMatcher) portData
    (by decide) (fun _ _ => rfl)
  obtain ⟨hc2, hc2id⟩ := h2.1 { Variables := [portRecord "Variables-7" scopeEnv2] } rfl
  obtain ⟨hu2, hu2id⟩ := h2.2 { Variables := [portRecord "Variables-7" scopeEnv2] } rfl
  obtain ⟨hc1, _⟩ := h1.1 { Variables := [portRecord "Variables-7" scopeEnv1] } rfl
  obtain ⟨hu1, _⟩ := h1.2 { Variables := [portRecord "Variables-7" scopeEnv1] } rfl
  have fc := hc2.mpr (by decide)
  have fu := hu2.mpr (by decide)
  refine ⟨⟨fc, hc2id fc⟩, ⟨fu, hu2id fu⟩, ?_, ?_⟩
  · by_contra hne
    exact absurd (hc1.mp hne) (by decide)
  · by_contra hne
    exact absurd (hu1.mp hne) (by decide)

/-- C4. Value is not compared for sensitive variables: for a candidate `C`
with `IsSensitive = true` and any other value `w`, the reconciliation loops of
create and update give the same outcome for `C` and for `C` with its Value
replaced by `w`, on every returned collection. -/
theorem sensitive_value_not_compared (m : Client) (d : ResourceData) (projID : String)
    (C : Variable) (w : String) (l : List Variable) (hs : C.IsSensitive = true) :
    resourceVariableCreate_loop m d projID { C with Value := w } l
        = resourceVariableCreate_loop m d projID C l ∧
      resourceVariableUpdate_loop m d projID { C with Value := w } l
        = resourceVariableUpdate_loop m d projID C l := by
  have hcond : ∀ v : Variable, fieldsMatch v { C with Value := w } ↔ fieldsMatch v C := by
    intro v
    simp only [fieldsMatch, hs]
    constructor
    · rintro ⟨h1, h2, h3, h4, _⟩
      exact ⟨h1, h2, h3, h4, Or.inl h4⟩
    · rintro ⟨h1, h2, h3, h4, _⟩
      exact ⟨h1, h2, h3, h4, Or.inl h4⟩
  constructor
  · induction l with
    | nil => rfl
    | cons v rest ih =>
      by_cases hf : fieldsMatch v C
      · rw [create_loop_cons_match m d projID C v rest hf,
          create_loop_cons_match m d projID _ v rest ((hcond v).mpr hf), ih]
      · rw [create_loop_cons_skip m d projID C v rest hf,
          create_loop_cons_skip m d projID _ v rest (fun h => hf ((hcond v).mp h)), ih]
  · induction l with
    | nil => rfl
    | cons v rest ih =>
      by_cases hf : fieldsMatch v C
      · rw [update_loop_cons_match m d projID C v rest hf,
          update_loop_cons_match m d projID _ v rest ((hcond v).mpr hf), ih]
      · rw [update_loop_cons_skip m d projID C v rest hf,
          update_loop_cons_skip m d projID _ v rest (fun h => hf ((hcond v).mp h)), ih]

/-- Witness of C4, on the claim's own input: the sensitive candidate
`DBPassword` with the withheld value `""` is reconciled to the returned record
`Variables-9` whose value is the mask `***`, by the loops and by the whole
create and update operations, and the loops give the same outcome when the
candidate carries the value `hunter2`. -/
theorem sensitive_value_not_compared_witness :
    (buildVariableResource (sampleExternals {}) passwordData).IsSensitive = true ∧
    (buildVariableResource (sampleExternals {}) passwordData).Value = "" ∧
    (resourceVariableCreate_loop (projectClient [passwordRecord "Variables-9"] equivalentMatcher)
        passwordData "Projects-1"
        { buildVariableResource (sampleExternals {}) passwordData with Value := "hunter2" }
        [passwordRecord "Variables-9"]).d.Id = "Variables-9" ∧
    (resourceVariableUpdate_loop (projectClient [passwordRecord "Variables-9"] equivalentMatcher)
        passwordData "Projects-1"
        { buildVariableResource (sampleExternals {}) passwordData with Value := "hunter2" }
        [passwordRecord "Variables-9"]).d.Id = "Variables-9" ∧
    (resourceVariableCreate (sampleExternals {})
        (projectClient [passwordRecord "Variables-9"] equivalentMatcher) passwordData).d.Id
      = "Variables-9" ∧
    (resourceVariableUpdate (sampleExternals {})
        (projectClient [passwordRecord "Variables-9"] equivalentMatcher) passwordData).d.Id
      = "Variables-9" := by
  have h := sensitive_value_not_compared
    (projectClient [passwordRecord "Variables-9"] equivalentMatcher) passwordData "Projects-1"
    (buildVariableResource (sampleExternals {}) passwordData) "hunter2"
    [passwordRecord "Variables-9"] (by decide)
  refine ⟨by decide, by decide, ?_, ?_, by decide, by decide⟩
  · rw [h.1]; decide
  · rw [h.2]; decide


/-- C5, counterexample. Creating and updating the variable `Port` of project
`Projects-1` against a collection in which no record matches returns the
message `unable to locate variable in project Projects-1`, which does not
contain the candidate's name `Port`. -/
theorem not_found_message_counterexample :
    (buildVariableResource (sampleExternals scopeEnv1) portData).Name = "Port" ∧
    (resourceVariableCreate (sampleExternals scopeEnv1)
        (projectClient [portRecord "Variables-7" scopeEnv2] equivalentMatcher) portData).diags
      = some (Diagnostic.Errorf "unable to locate variable in project Projects-1") ∧
    (resourceVariableUpdate (sampleExternals scopeEnv1)
        (projectClient [portRecord "Variables-7" scopeEnv2] equivalentMatcher) portData).diags
      = some (Diagnostic.Errorf "unable to locate variable in project Projects-1") ∧
    ¬ containsText "unable to locate variable in project Projects-1" "Port" := by
  decide

/-- C5, amended. When validation passes, the remote call answers with a
collection and no returned record matches, the failure of variable update,
and of variable create when the scope matcher reported no error, is
`diag.Errorf` with the message `unable to locate variable in project `
followed by the owning project identifier: the message contains the project
identifier, and it is built from the project identifier alone. -/
theorem not_found_message_has_project (x : Externals) (m : Client) (d : ResourceData)
    (hv : validateVariable d = none) :
    (∀ tfVar, m.Variables.AddSingle (projectOf d) (buildVariableResource x d) = Except.ok tfVar →
      (∀ R ∈ tfVar.Variables, ¬ qualifies m R (buildVariableResource x d)) →
      (∀ R ∈ tfVar.Variables, fieldsMatch R (buildVariableResource x d) →
        (m.Variables.MatchesScope R.Scope (buildVariableResource x d).Scope).2 = none) →
      (resourceVariableCreate x m d).diags
          = some (Diagnostic.Errorf ("unable to locate variable in project " ++ projectOf d)) ∧
        containsText ("unable to locate variable in project " ++ projectOf d) (projectOf d)) ∧
    (∀ updatedVars,
      m.Variables.UpdateSingle (projectOf d) (updateCandidate x d) = Except.ok updatedVars →
      (∀ R ∈ updatedVars.Variables, ¬ qualifies m R (updateCandidate x d)) →
      (resourceVariableUpdate x m d).diags
          = some (Diagnostic.Errorf ("unable to locate variable in project " ++ projectOf d)) ∧
        containsText ("unable to locate variable in project " ++ projectOf d) (projectOf d)) := by
  have hc : containsText ("unable to locate variable in project " ++ projectOf d) (projectOf d) := by
    unfold containsText
    rw [String.data_append]
    exact (List.suffix_append _ _).isInfix
  constructor
  · intro tfVar ha hno herr
    rw [create_of_returned x m d tfVar hv ha]
    exact ⟨(create_loop_none m d (projectOf d) _ _ hno herr).2, hc⟩
  · intro updatedVars ha hno
    rw [update_of_returned x m d updatedVars hv ha]
    exact ⟨(update_loop_none m d (projectOf d) _ _ hno).2, hc⟩

/-- Witness of C5: the `Port` variable of `Projects-1` against a record of
another scope. -/
theorem not_found_message_has_project_witness :
    containsText "unable to locate variable in project Projects-1" "Projects-1" ∧
    (resourceVariableCreate (sampleExternals scopeEnv1)
        (projectClient [portRecord "Variables-7" scopeEnv2] equivalentMatcher) portData).diags
      = some (Diagnostic.Errorf ("unable to locate variable in project " ++ "Projects-1")) ∧
    (resourceVariableUpdate (sampleExternals scopeEnv1)
        (projectClient [portRecord "Variables-7" scopeEnv2] equivalentMatcher) portData).diags
      = some (Diagnostic.Errorf ("unable to locate variable in project " ++ "Projects-1")) := by
  have h := not_found_message_has_project (sampleExternals scopeEnv1)
    (projectClient [portRecord "Variables-7" scopeEnv2] equivalentMatcher) portData (by decide)
  have hc := h.1 { Variables := [portRecord "Variables-7" scopeEnv2] } rfl (by decide)
    (fun _ _ _ => rfl)
  have hu := h.2 { Variables := [portRecord "Variables-7" scopeEnv2] } rfl (by decide)
  exact ⟨by decide, hc.1, hu.1⟩

/-- C6. `validateVariable` enforces `is_sensitive` if and only if `type` is
`Sensitive`: it returns diagnostics exactly when the declared boolean differs
from `type == "Sensitive"`, with the message of the side at fault, and `nil`
otherwise; this holds for every boolean and every type string put in `d`.
The function only reads `d`, so its embedding yields diagnostics and no new
resource data. -/
theorem validateVariable_iff (d : ResourceData) :
    (validateVariable d ≠ none ↔ sensitivityMismatch d) ∧
    (∀ (b : Bool) (t : String),
      (validateVariable ((d.Set Key.constIsSensitive (Value.bool b)).Set Key.constType
          (Value.str t)) ≠ none ↔ b ≠ decide (t = "Sensitive")) ∧
      (b = true → t ≠ "Sensitive" →
        validateVariable ((d.Set Key.constIsSensitive (Value.bool b)).Set Key.constType
          (Value.str t)) = some (Diagnostic.Errorf
            "when is_sensitive is set to true, type needs to be 'Sensitive'")) ∧
      (b = false → t = "Sensitive" →
        validateVariable ((d.Set Key.constIsSensitive (Value.bool b)).Set Key.constType
          (Value.str t)) = some (Diagnostic.Errorf
            "when type is set to 'Sensitive', is_sensitive needs to be true"))) := by
  have key : ∀ d' : ResourceData, validateVariable d' ≠ none ↔ sensitivityMismatch d' := by
    intro d'
    unfold validateVariable sensitivityMismatch
    cases (d'.Get Key.constIsSensitive).asBool <;>
      by_cases ht : (d'.Get Key.constType).asString = "Sensitive" <;> simp [ht]
  refine ⟨key d, fun b t => ⟨?_, ?_, ?_⟩⟩
  · rw [key]
    simp [sensitivityMismatch, ResourceData.Get, ResourceData.Set, Function.update,
      Value.asBool, Value.asString]
  · rintro rfl ht
    simp [validateVariable, ResourceData.Get, ResourceData.Set, Function.update,
      Value.asBool, Value.asString, ht]
  · rintro rfl rfl
    simp [validateVariable, ResourceData.Get, ResourceData.Set, Function.update,
      Value.asBool, Value.asString]

/-- Witness of C6: `is_sensitive = true` with type `String` is rejected, and
the `Port` and `DBPassword` declarations pass. -/
theorem validateVariable_iff_witness :
    validateVariable mismatchedData ≠ none ∧ validateVariable portData = none ∧
      validateVariable passwordData = none := by
  refine ⟨(validateVariable_iff mismatchedData).1.mpr (by decide), ?_, ?_⟩
  · by_contra h
    exact absurd ((validateVariable_iff portData).1.mp h) (by decide)
  · by_contra h
    exact absurd ((validateVariable_iff passwordData).1.mp h) (by decide)


/-- C7. `resourceVariableImport` parses a composite identifier: it succeeds if
and only if `strings.Split` on the colon gives exactly two segments, which is
when the identifier holds exactly one colon. On success the identifier is `a`,
a colon, then `b`, with no colon in `a` or `b`, and exactly one resource data
is returned: reading its tracked identifier gives `b`, reading its
`project_id` gives the string `a`, and every other attribute reads as before;
otherwise the function returns an error and no resource data. -/
theorem resourceVariableImport_iff (d : ResourceData) :
    ((∃ ds, resourceVariableImport d = Except.ok ds) ↔ (stringsSplitColon d.Id).length = 2) ∧
    ((stringsSplitColon d.Id).length = 2 ↔ d.Id.data.count ':' = 1) ∧
    (∀ ds, resourceVariableImport d = Except.ok ds →
      ∃ a b : String, d.Id = a ++ ":" ++ b ∧ ':' ∉ a.data ∧ ':' ∉ b.data ∧
        ds = [(d.Set Key.constProjectID (Value.str a)).SetId b] ∧
        ∃ d1 : ResourceData, ds = [d1] ∧ d1.Id = b ∧
          d1.Get Key.constProjectID = Value.str a ∧
          ∀ k, k ≠ Key.constProjectID → d1.Get k = d.Get k) ∧
    ((stringsSplitColon d.Id).length ≠ 2 → ∃ err, resourceVariableImport d = Except.error err) := by
  have hlen : (stringsSplitColon d.Id).length = d.Id.data.count ':' + 1 := by
    simp [stringsSplitColon, splitChars_length]
  have hok : ∀ ds, resourceVariableImport d = Except.ok ds →
      ∃ a b : String, stringsSplitColon d.Id = [a, b] ∧
        ds = [(d.Set Key.constProjectID (Value.str a)).SetId b] := by
    intro ds h
    unfold resourceVariableImport at h
    simp only at h
    split at h
    · next s0 s1 heq => exact ⟨s0, s1, heq, (Except.ok.inj h).symm⟩
    · cases h
  refine ⟨⟨?_, ?_⟩, ?_, ?_, ?_⟩
  · rintro ⟨ds, h⟩
    obtain ⟨a, b, hab, _⟩ := hok ds h
    rw [hab]; rfl
  · intro h2
    match hs : stringsSplitColon d.Id, h2 with
    | [a, b], _ =>
      refine ⟨[(d.Set Key.constProjectID (Value.str a)).SetId b], ?_⟩
      unfold resourceVariableImport
      simp only [hs]
  · rw [hlen]; omega
  · intro ds h
    obtain ⟨a, b, hab, hds⟩ := hok ds h
    refine ⟨a, b, ?_, ?_, ?_, hds, (d.Set Key.constProjectID (Value.str a)).SetId b, hds, rfl,
      ?_, ?_⟩
    rotate_left 3
    · simp [ResourceData.Get, ResourceData.Set, ResourceData.SetId]
    · intro k hk
      simp [ResourceData.Get, ResourceData.Set, ResourceData.SetId, Function.update, hk]
    · unfold stringsSplitColon at hab
      have hsplit : splitChars ':' d.Id.data = [a.data, b.data] := by
        cases hsp : splitChars ':' d.Id.data with
        | nil => rw [hsp] at hab; simp at hab
        | cons p ps =>
          rw [hsp] at hab
          cases ps with
          | nil => simp at hab
          | cons q qs =>
            cases qs with
            | nil =>
              simp only [List.map_cons, List.map_nil, List.cons.injEq, and_true] at hab
              obtain ⟨rfl, rfl⟩ := hab
              rfl
            | cons r rs => simp at hab
      have := splitChars_two ':' d.Id.data a.data b.data hsplit
      apply String.ext
      rw [this]
      simp [String.data_append]
    · unfold stringsSplitColon at hab
      have hmem : a.data ∈ splitChars ':' d.Id.data := by
        have : a ∈ (splitChars ':' d.Id.data).map String.mk := by rw [hab]; simp
        obtain ⟨p, hp, rfl⟩ := List.mem_map.mp this
        exact hp
      exact splitChars_no_sep ':' _ _ hmem
    · unfold stringsSplitColon at hab
      have hmem : b.data ∈ splitChars ':' d.Id.data := by
        have : b ∈ (splitChars ':' d.Id.data).map String.mk := by rw [hab]; simp
        obtain ⟨p, hp, rfl⟩ := List.mem_map.mp this
        exact hp
      exact splitChars_no_sep ':' _ _ hmem
  · intro hne
    unfold resourceVariableImport
    simp only
    split
    · next s0 s1 heq => rw [heq] at hne; exact absurd rfl hne
    · exact ⟨_, rfl⟩

/-- Witness of C7, on the claim's own inputs: for `Projects-1:Variables-2` one
resource data is returned, whose tracked identifier reads `Variables-2` and
whose `project_id` reads `Projects-1`, where the identifier was the whole
text and `project_id` was not set before; `bad-id` is refused. -/
theorem resourceVariableImport_iff_witness :
    resourceVariableImport (resourceData "Projects-1:Variables-2" [])
      = Except.ok [((resourceData "Projects-1:Variables-2" []).Set Key.constProjectID
          (Value.str "Projects-1")).SetId "Variables-2"] ∧
    (resourceVariableImport (resourceData "Projects-1:Variables-2" [])).toOption.map
        (fun ds => ds.map (fun d1 => d1.Id)) = some ["Variables-2"] ∧
    (resourceVariableImport (resourceData "Projects-1:Variables-2" [])).toOption.map
        (fun ds => ds.map (fun d1 => d1.Get Key.constProjectID))
      = some [Value.str "Projects-1"] ∧
    (resourceData "Projects-1:Variables-2" []).Id = "Projects-1:Variables-2" ∧
    (resourceData "Projects-1:Variables-2" []).Get Key.constProjectID = Value.null ∧
    (∃ err, resourceVariableImport (resourceData "bad-id" []) = Except.error err) := by
  have hgood := (resourceVariableImport_iff (resourceData "Projects-1:Variables-2" [])).1.mpr
    (by decide)
  obtain ⟨ds, hds⟩ := hgood
  obtain ⟨a, b, _, _, _, _, d1, hd1, hid, hproj, _⟩ :=
    (resourceVariableImport_iff (resourceData "Projects-1:Variables-2" [])).2.2.1 ds hds
  have hds2 : resourceVariableImport (resourceData "Projects-1:Variables-2" [])
      = Except.ok [((resourceData "Projects-1:Variables-2" []).Set Key.constProjectID
          (Value.str "Projects-1")).SetId "Variables-2"] := rfl
  refine ⟨hds2, ?_, ?_, rfl, rfl,
    (resourceVariableImport_iff (resourceData "bad-id" [])).2.2.2 (by decide)⟩
  · rw [hds2]; rfl
  · rw [hds2]; rfl

/-- C8. Validation precedes the network in the variable adapter: when the
declared `is_sensitive` and `type` disagree, `resourceVariableCreate` and
`resourceVariableUpdate` return the diagnostics of `validateVariable`, make no
call to the client (the only steps are taking and releasing the mutex), and
leave the resource data, tracked identifier and attributes, as they were. -/
theorem variable_validation_precedes_network (x : Externals) (m : Client) (d : ResourceData)
    (h : sensitivityMismatch d) :
    validateVariable d ≠ none ∧
    ((resourceVariableCreate x m d).diags = validateVariable d ∧
      (resourceVariableCreate x m d).trace = [Event.mutexLock, Event.mutexUnlock] ∧
      (resourceVariableCreate x m d).d = d) ∧
    ((resourceVariableUpdate x m d).diags = validateVariable d ∧
      (resourceVariableUpdate x m d).trace = [Event.mutexLock, Event.mutexUnlock] ∧
      (resourceVariableUpdate x m d).d = d) := by
  have hne : validateVariable d ≠ none := by
    unfold validateVariable
    unfold sensitivityMismatch at h
    revert h
    cases (d.Get Key.constIsSensitive).asBool <;>
      by_cases ht : (d.Get Key.constType).asString = "Sensitive" <;> simp [ht]
  cases herr : validateVariable d with
  | none => exact absurd herr hne
  | some err =>
    rw [create_of_invalid x m d err herr, update_of_invalid x m d err herr]
    exact ⟨by simp, ⟨rfl, rfl, rfl⟩, ⟨rfl, rfl, rfl⟩⟩

/-- Witness of C8: `is_sensitive = true` with type `String`, against a client
that would have answered. -/
theorem variable_validation_precedes_network_witness :
    sensitivityMismatch mismatchedData ∧
    (resourceVariableCreate (sampleExternals scopeEnv1)
        (projectClient [portRecord "Variables-7" scopeEnv1] equivalentMatcher)
        mismatchedData).trace = [Event.mutexLock, Event.mutexUnlock] ∧
    (resourceVariableUpdate (sampleExternals scopeEnv1)
        (projectClient [portRecord "Variables-7" scopeEnv1] equivalentMatcher)
        mismatchedData).d = mismatchedData := by
  have h := variable_validation_precedes_network (sampleExternals scopeEnv1)
    (projectClient [portRecord "Variables-7" scopeEnv1] equivalentMatcher) mismatchedData
    (by decide)
  exact ⟨by decide, h.2.1.2.1, h.2.2.2.2⟩

/-- C9. Not-found on read is drift, not failure: in each of the four Read
operations (variable, lifecycle, deployment-target trigger, Azure account),
when the remote get-by-id answers with no object and no error, the operation
sets the tracked identifier to the empty string, returns no diagnostics, and
leaves every attribute as it was. -/
theorem read_not_found_clears_identifier (m : Client) (d : ResourceData) :
    (m.Variables.GetByID (projectOf d) d.Id = Except.ok none →
      (resourceVariableRead m d).d.Id = "" ∧ (resourceVariableRead m d).diags = none ∧
        (resourceVariableRead m d).d.attrs = d.attrs) ∧
    (m.Lifecycles.GetByID d.Id = Except.ok none →
      (resourceLifecycleRead m d).d.Id = "" ∧ (resourceLifecycleRead m d).diags = none ∧
        (resourceLifecycleRead m d).d.attrs = d.attrs) ∧
    (m.ProjectTriggers.GetByID d.Id = Except.ok none →
      (resourceProjectDeploymentTargetTriggerRead m d).d.Id = "" ∧
        (resourceProjectDeploymentTargetTriggerRead m d).diags = none ∧
        (resourceProjectDeploymentTargetTriggerRead m d).d.attrs = d.attrs) ∧
    (m.Accounts.GetByID d.Id = Except.ok none →
      (resourceAzureServicePrincipalRead m d).d.Id = "" ∧
        (resourceAzureServicePrincipalRead m d).diags = none ∧
        (resourceAzureServicePrincipalRead m d).d.attrs = d.attrs) := by
  refine ⟨fun h => ?_, fun h => ?_, fun h => ?_, fun h => ?_⟩
  · unfold projectOf at h
    simp only [resourceVariableRead, h, Outcome.after_d, Outcome.after_diags]
    exact ⟨rfl, trivial, rfl⟩
  · simp only [resourceLifecycleRead, h, Outcome.after_d, Outcome.after_diags]
    exact ⟨rfl, trivial, rfl⟩
  · simp only [resourceProjectDeploymentTargetTriggerRead, h, Outcome.after_d,
      Outcome.after_diags]
    exact ⟨rfl, trivial, rfl⟩
  · simp only [resourceAzureServicePrincipalRead, h, Outcome.after_d, Outcome.after_diags]
    exact ⟨rfl, trivial, rfl⟩

/-- Witness of C9: the four reads of `Resources-1` against a client whose
lookups find nothing. -/
theorem read_not_found_clears_identifier_witness :
    namedData.Id = "Resources-1" ∧
    (resourceVariableRead offlineClient namedData).d.Id = "" ∧
    (resourceLifecycleRead offlineClient namedData).d.Id = "" ∧
    (resourceProjectDeploymentTargetTriggerRead offlineClient namedData).d.Id = "" ∧
    (resourceAzureServicePrincipalRead offlineClient namedData).d.Id = "" ∧
    (resourceAzureServicePrincipalRead offlineClient namedData).diags = none := by
  have h := read_not_found_clears_identifier offlineClient namedData
  exact ⟨rfl, (h.1 rfl).1, (h.2.1 rfl).1, (h.2.2.1 rfl).1, (h.2.2.2 rfl).1, (h.2.2.2 rfl).2.1⟩


/-- C10. Where the code departs from the claim: when the remote call fails
with `connection refused`, the create, update and delete of the lifecycle
adapter return `diag.FromErr` of that very error, not of the error made by
`createResourceOperationError` from the operation kind and the lifecycle's
name or identifier. On the same input the trigger adapter's create, update
and delete and the Azure account adapter's create do return the wrapped
error. -/
theorem lifecycle_errors_not_wrapped :
    (resourceLifecycleCreate (sampleExternals {}) offlineClient namedData).trace
      = [Event.LifecyclesAdd
          { ID := "", Name := "Default", Description := "",
            ReleaseRetentionPolicy := { Unit := "Days", QuantityToKeep := 0 },
            TentacleRetentionPolicy := { Unit := "Days", QuantityToKeep := 0 },
            Phases := [] }] ∧
    (resourceLifecycleCreate (sampleExternals {}) offlineClient namedData).diags
      = some (Diagnostic.FromErr connectionRefused) ∧
    (resourceLifecycleUpdate (sampleExternals {}) offlineClient namedData).diags
      = some (Diagnostic.FromErr connectionRefused) ∧
    (resourceLifecycleDelete offlineClient namedData).diags
      = some (Diagnostic.FromErr connectionRefused) ∧
    (resourceLifecycleCreate (sampleExternals {}) offlineClient namedData).diags
      ≠ some (Diagnostic.FromErr (createResourceOperationError
          ErrorKind.errorCreatingLifecycle "Default" connectionRefused)) ∧
    (resourceLifecycleUpdate (sampleExternals {}) offlineClient namedData).diags
      ≠ some (Diagnostic.FromErr (createResourceOperationError
          ErrorKind.errorUpdatingLifecycle "Resources-1" connectionRefused)) ∧
    (resourceLifecycleDelete offlineClient namedData).diags
      ≠ some (Diagnostic.FromErr (createResourceOperationError
          ErrorKind.errorDeletingLifecycle "Resources-1" connectionRefused)) ∧
    (resourceProjectDeploymentTargetTriggerCreate (sampleExternals {}) offlineClient
        namedData).diags
      = some (Diagnostic.FromErr (createResourceOperationError
          ErrorKind.errorCreatingProjectTrigger "Default" connectionRefused)) ∧
    (resourceProjectDeploymentTargetTriggerUpdate (sampleExternals {}) offlineClient
        namedData).diags
      = some (Diagnostic.FromErr (createResourceOperationError
          ErrorKind.errorUpdatingProjectTrigger "Resources-1" connectionRefused)) ∧
    (resourceProjectDeploymentTargetTriggerDelete offlineClient namedData).diags
      = some (Diagnostic.FromErr (createResourceOperationError
          ErrorKind.errorDeletingProjectTrigger "Resources-1" connectionRefused)) ∧
    (resourceAzureServicePrincipalCreate (sampleExternals {}) offlineClient namedData).diags
      = some (Diagnostic.FromErr (createResourceOperationError
          ErrorKind.errorCreatingAzureServicePrincipal "Default" connectionRefused)) := by
  decide

/-- C11. Disallowed enumeration values are rejected before any network call in
the trigger adapter: when the declared `event_groups` holds a value outside
the five allowed groups, or the declared `event_categories` holds a value
outside the nine allowed categories, `buildProjectDeploymentTargetTriggerResource`
returns an error and no record, and trigger create and update return
`diag.FromErr` of that error with no client call at all and with the resource
data, tracked identifier included, unchanged. The two helpers kept in another
file are taken as given: the slice helper returns the strings of a string
list, and the validation helper answers `true` exactly when every item is in
the list of valid values. -/
theorem trigger_rejects_disallowed_values (x : Externals) (m : Client) (d : ResourceData)
    (hslice : ∀ xs, x.getSliceFromTerraformTypeList (Value.strs xs) = some xs)
    (hvalid : ∀ given valid, (x.validateAllSliceItemsInSlice given valid).2 = true ↔
      ∀ a ∈ given.getD [], a ∈ valid)
    (hbad :
      (∃ groups, d.Get Key.constEventGroups = Value.strs groups ∧
        ∃ a ∈ groups, a ∉ validEventGroups) ∨
      (∃ categories, d.Get Key.constEventCategories = Value.strs categories ∧
        ∃ a ∈ categories, a ∉ validEventCategories)) :
    ∃ err, buildProjectDeploymentTargetTriggerResource x d = Except.error err ∧
      ((resourceProjectDeploymentTargetTriggerCreate x m d).diags
          = some (Diagnostic.FromErr err) ∧
        (resourceProjectDeploymentTargetTriggerCreate x m d).trace = [] ∧
        (resourceProjectDeploymentTargetTriggerCreate x m d).d = d) ∧
      ((resourceProjectDeploymentTargetTriggerUpdate x m d).diags
          = some (Diagnostic.FromErr err) ∧
        (resourceProjectDeploymentTargetTriggerUpdate x m d).trace = [] ∧
        (resourceProjectDeploymentTargetTriggerUpdate x m d).d = d) := by
  have hrej : ∀ (k : Key) (items valid : List String), d.Get k = Value.strs items →
      (∃ a ∈ items, a ∉ valid) →
      (d.GetOk k).2 = true ∧
        (x.validateAllSliceItemsInSlice (x.getSliceFromTerraformTypeList (d.GetOk k).1) valid).2
          = false := by
    intro k items valid hk ⟨a, ha, hna⟩
    have hk' : d.attrs k = Value.strs items := hk
    constructor
    · cases items with
      | nil => simp at ha
      | cons b rest => simp [ResourceData.GetOk, hk', Value.isZero]
    · simp only [ResourceData.GetOk, hk', hslice]
      rw [← Bool.not_eq_true, hvalid]
      intro hall
      exact hna (hall a (by simpa using ha))
  have herr : ∃ err, buildProjectDeploymentTargetTriggerResource x d = Except.error err := by
    rcases hbad with ⟨groups, hg, hex⟩ | ⟨categories, hc, hex⟩
    · obtain ⟨h1, h2⟩ := hrej _ groups validEventGroups hg hex
      exact build_trigger_error_of_groups x d h1 h2
    · obtain ⟨h1, h2⟩ := hrej _ categories validEventCategories hc hex
      exact build_trigger_error_of_categories x d h1 h2
  obtain ⟨err, he⟩ := herr
  refine ⟨err, he, ?_, ?_⟩
  · simp only [resourceProjectDeploymentTargetTriggerCreate, he]
    exact ⟨trivial, trivial, trivial⟩
  · simp only [resourceProjectDeploymentTargetTriggerUpdate, he]
    exact ⟨trivial, trivial, trivial⟩

/-- Witness of C11: the value `MachineRebooted` in `event_groups`, and the
value `MachineDeleted` in `event_categories`, against a client that would
have accepted the trigger: create and update make no call and keep the
identifier `ProjectTriggers-4`. -/
theorem trigger_rejects_disallowed_values_witness :
    (resourceProjectDeploymentTargetTriggerCreate (sampleExternals {})
        (acceptingClient "ProjectTriggers-9") badGroupsData).trace = [] ∧
    (resourceProjectDeploymentTargetTriggerCreate (sampleExternals {})
        (acceptingClient "ProjectTriggers-9") badGroupsData).d.Id = "ProjectTriggers-4" ∧
    (resourceProjectDeploymentTargetTriggerUpdate (sampleExternals {})
        (acceptingClient "ProjectTriggers-9") badCategoriesData).trace = [] ∧
    (resourceProjectDeploymentTargetTriggerUpdate (sampleExternals {})
        (acceptingClient "ProjectTriggers-9") badCategoriesData).diags ≠ none := by
  obtain ⟨e1, _, ⟨_, ht1, hd1⟩, _⟩ := trigger_rejects_disallowed_values (sampleExternals {})
    (acceptingClient "ProjectTriggers-9") badGroupsData (fun _ => rfl)
    (sampleExternals_validates {})
    (Or.inl ⟨["Machine", "MachineRebooted"], rfl, "MachineRebooted", by decide, by decide⟩)
  obtain ⟨e2, _, _, ⟨hg2, ht2, _⟩⟩ := trigger_rejects_disallowed_values (sampleExternals {})
    (acceptingClient "ProjectTriggers-9") badCategoriesData (fun _ => rfl)
    (sampleExternals_validates {})
    (Or.inr ⟨["MachineAdded", "MachineDeleted"], rfl, "MachineDeleted", by decide, by decide⟩)
  refine ⟨ht1, ?_, ht2, ?_⟩
  · rw [hd1]; rfl
  · rw [hg2]; simp

/-- C12. The scope-equivalence check of the spec, `Equivalent`, equals
per-dimension set equality: it answers `true` if and only if, in each of the
seven dimensions, the two scopes hold the same set of identifiers, whatever
the order and the repetitions in the lists, an absent list being the empty
list; so scopes whose lists are rearrangements of each other are equivalent,
and the matcher built on it reports that answer and no error. -/
theorem Equivalent_iff_same_sets (A B : VariableScope) :
    (Equivalent A B = true ↔
      A.EnvironmentIDs.toFinset = B.EnvironmentIDs.toFinset ∧
      A.MachineIDs.toFinset = B.MachineIDs.toFinset ∧
      A.Roles.toFinset = B.Roles.toFinset ∧
      A.Actions.toFinset = B.Actions.toFinset ∧
      A.Channels.toFinset = B.Channels.toFinset ∧
      A.TenantTags.toFinset = B.TenantTags.toFinset ∧
      A.ProcessNames.toFinset = B.ProcessNames.toFinset) ∧
    (A.EnvironmentIDs.Perm B.EnvironmentIDs → A.MachineIDs.Perm B.MachineIDs →
      A.Roles.Perm B.Roles → A.Actions.Perm B.Actions → A.Channels.Perm B.Channels →
      A.TenantTags.Perm B.TenantTags → A.ProcessNames.Perm B.ProcessNames →
      Equivalent A B = true) ∧
    (Equivalent A {} = true ↔
      A.EnvironmentIDs = [] ∧ A.MachineIDs = [] ∧ A.Roles = [] ∧ A.Actions = [] ∧
      A.Channels = [] ∧ A.TenantTags = [] ∧ A.ProcessNames = []) ∧
    equivalentMatcher A B = (Equivalent A B, none) := by
  have hiff : ∀ A B : VariableScope, Equivalent A B = true ↔
      A.EnvironmentIDs.toFinset = B.EnvironmentIDs.toFinset ∧
      A.MachineIDs.toFinset = B.MachineIDs.toFinset ∧
      A.Roles.toFinset = B.Roles.toFinset ∧
      A.Actions.toFinset = B.Actions.toFinset ∧
      A.Channels.toFinset = B.Channels.toFinset ∧
      A.TenantTags.toFinset = B.TenantTags.toFinset ∧
      A.ProcessNames.toFinset = B.ProcessNames.toFinset := by
    intro A B
    simp only [Equivalent, Bool.and_eq_true, sameSet_iff, and_assoc]
  refine ⟨hiff A B, ?_, ?_, rfl⟩
  · intro h1 h2 h3 h4 h5 h6 h7
    rw [hiff]
    exact ⟨List.toFinset_eq_of_perm _ _ h1, List.toFinset_eq_of_perm _ _ h2,
      List.toFinset_eq_of_perm _ _ h3, List.toFinset_eq_of_perm _ _ h4,
      List.toFinset_eq_of_perm _ _ h5, List.toFinset_eq_of_perm _ _ h6,
      List.toFinset_eq_of_perm _ _ h7⟩
  · rw [hiff]
    simp [List.toFinset_eq_empty_iff]

/-- Witness of C12: `Env-1, Env-2` against `Env-2, Env-1, Env-1` is
equivalent; `Env-1` against `Env-2` is not. -/
theorem Equivalent_iff_same_sets_witness :
    Equivalent { EnvironmentIDs := ["Env-1", "Env-2"], Roles := ["web", "db"] }
      { EnvironmentIDs := ["Env-2", "Env-1"], Roles := ["db", "web"] } = true ∧
    Equivalent { EnvironmentIDs := ["Env-1", "Env-2"] }
      { EnvironmentIDs := ["Env-2", "Env-1", "Env-1"] } = true ∧
    Equivalent scopeEnv1 scopeEnv2 = false := by
  refine ⟨?_, by decide, by decide⟩
  exact (Equivalent_iff_same_sets
    { EnvironmentIDs := ["Env-1", "Env-2"], Roles := ["web", "db"] }
    { EnvironmentIDs := ["Env-2", "Env-1"], Roles := ["db", "web"] }).2.1
    (by decide) (by decide) (by decide) (by decide) (by decide) (by decide) (by decide)

/-- C13. Variable mutations are serialised by one process-wide lock. The trace
of `resourceVariableCreate`, `resourceVariableUpdate` and
`resourceVariableDelete` is, on every input and so on every return path,
`mutex.Lock()` first, then steps that do not touch the mutex (the remote call
among them), then `mutex.Unlock()` last and once; the trace of
`resourceVariableRead` never touches the mutex. Hence in every run of
concurrently executing variable operations that the mutex allows, at most one
invocation is between its `Lock` and its `Unlock`, and every step a mutation
takes other than on the mutex, its remote call included, is taken while that
invocation is the one holding the mutex. -/
theorem variable_mutations_serialised :
    (∀ (x : Externals) (m : Client) (d : ResourceData),
      bracketed (resourceVariableCreate x m d).trace ∧
      bracketed (resourceVariableUpdate x m d).trace ∧
      bracketed (resourceVariableDelete m d).trace ∧
      mutexFree (resourceVariableRead m d).trace) ∧
    (∀ (job : Nat → List Event) (run : List Step),
      (∀ i, isVariableOperationTrace (job i)) → isRun job run →
      (∀ i j, holdsMutex i run → holdsMutex j run → i = j) ∧
      (∀ p q i ev, run = p ++ Step.mk i ev :: q →
        isVariableMutationTrace (job i) →
        ev ≠ Event.mutexLock → ev ≠ Event.mutexUnlock →
        holdsMutex i (p ++ [Step.mk i ev]))) := by
  refine ⟨fun x m d => ⟨create_trace_bracketed x m d, update_trace_bracketed x m d,
    delete_trace_bracketed m d, read_trace_mutexFree m d⟩, ?_⟩
  intro job run hjob hrun
  have hshape : ∀ i, bracketed (job i) ∨ mutexFree (job i) :=
    fun i => operation_trace_shape _ (hjob i)
  obtain ⟨hpre, hsome⟩ := hrun
  obtain ⟨l, hl⟩ := Option.isSome_iff_exists.mp hsome
  refine ⟨(mutex_invariant job hshape run hpre l hl).2, ?_⟩
  intro p q i ev hsplit hmut h1 h2
  have hi := hpre i
  rw [hsplit, show p ++ Step.mk i ev :: q = (p ++ [Step.mk i ev]) ++ q by simp,
    eventsOf_append] at hi
  have hpi : eventsOf i (p ++ [Step.mk i ev]) <+: job i :=
    (List.prefix_append _ _).trans hi
  rw [eventsOf_append, eventsOf_single, if_pos rfl] at hpi
  obtain ⟨hin, hout⟩ := after_lock_before_unlock (job i) _ ev
    (mutation_trace_bracketed _ hmut) h1 hpi
  simp only [holdsMutex, eventsOf_append, eventsOf_single, if_true, List.mem_append,
    List.mem_singleton]
  refine ⟨Or.inl hin, ?_⟩
  rintro (h | h)
  · exact hout h
  · exact h2 h.symm

/-- Witness of C13: a create, a delete and a read of the `Port` variable
running at once. In the sample run the delete holds the mutex, so the create,
which has released it, does not; the delete's remote call is taken while it
holds the mutex; and the mutex does not allow a second `Lock` while locked. -/
theorem variable_mutations_serialised_witness :
    holdsMutex 1 sampleRun ∧ ¬ holdsMutex 0 sampleRun ∧
    holdsMutex 1 (sampleRun.take 6 ++
      [Step.mk 1 (Event.VariablesDeleteSingle "Projects-1" "Variables-3")]) ∧
    mutexRun false [Step.mk 0 Event.mutexLock, Step.mk 1 Event.mutexLock] = none := by
  have hjob : ∀ i, isVariableOperationTrace (sampleJob i) := by
    intro i
    match i with
    | 0 => exact Or.inl ⟨_, _, _, Or.inl rfl⟩
    | 1 => exact Or.inl ⟨sampleExternals {}, _, _, Or.inr (Or.inr rfl)⟩
    | n + 2 => exact Or.inr ⟨_, _, rfl⟩
  obtain ⟨huniq, hcall⟩ := variable_mutations_serialised.2 sampleJob sampleRun hjob
    sampleRun_isRun
  have h1 : holdsMutex 1 sampleRun := by decide
  refine ⟨h1, fun h0 => absurd (huniq 0 1 h0 h1) (by decide), ?_, by decide⟩
  exact hcall (sampleRun.take 6) [] 1 _ rfl
    ⟨sampleExternals {}, offlineClient, portData, Or.inr (Or.inr rfl)⟩ (by simp) (by simp)

/-- C14. In `resourceVariableCreate`, a scope-matcher error aborts
reconciliation without touching the tracked identifier. When validation
passes and the returned collection is `pre`, then `R`, then `post`, where `R`
passes the field comparison and makes the scope matcher report the error `e`,
and every record of `pre` that passes the field comparison got the answer "no
match, no error", create returns `diag.FromErr(e)`, leaves the resource data
exactly as it was, and calls the matcher for the field-matching records of
`pre` and for `R` and for no record of `post`. -/
theorem create_aborts_on_matcher_error (x : Externals) (m : Client) (d : ResourceData)
    (tfVar : Variables) (pre : List Variable) (R : Variable) (post : List Variable)
    (e : GoError) (hv : validateVariable d = none)
    (ha : m.Variables.AddSingle (projectOf d) (buildVariableResource x d) = Except.ok tfVar)
    (hsplit : tfVar.Variables = pre ++ R :: post)
    (hpre : ∀ v ∈ pre, fieldsMatch v (buildVariableResource x d) →
      m.Variables.MatchesScope v.Scope (buildVariableResource x d).Scope = (false, none))
    (hf : fieldsMatch R (buildVariableResource x d))
    (he : (m.Variables.MatchesScope R.Scope (buildVariableResource x d).Scope).2 = some e) :
    (resourceVariableCreate x m d).diags = some (Diagnostic.FromErr e) ∧
    (resourceVariableCreate x m d).d = d ∧
    (resourceVariableCreate x m d).trace
      = Event.mutexLock ::
          Event.VariablesAddSingle (projectOf d) (buildVariableResource x d) ::
          (matchesEvents (pre.filter (fun v => decide (fieldsMatch v (buildVariableResource x d)))
              ++ [R]) (buildVariableResource x d)
            ++ [Event.mutexUnlock]) := by
  rw [create_of_returned x m d tfVar hv ha, hsplit]
  obtain ⟨h1, h2, h3⟩ := create_loop_abort m d (projectOf d) (buildVariableResource x d)
    pre R post e hpre hf he
  simp only [withMutex_d, withMutex_diags, withMutex_trace, Outcome.after_d, Outcome.after_diags,
    Outcome.after_trace, h1, h2, h3, List.cons_append]
  exact ⟨trivial, trivial, trivial⟩

/-- Witness of C14: the `Port` variable, tracked as `Variables-3`, created
against a collection whose first record makes the matcher fail and whose next
two records both qualify: the matcher's error comes back, the identifier is
still `Variables-3`, and the matcher was called once. -/
theorem create_aborts_on_matcher_error_witness :
    (resourceVariableCreate (sampleExternals scopeEnv1)
        (projectClient (duplicatePorts scopeBroken) brokenEnvironmentMatcher) portData).diags
      = some (Diagnostic.FromErr (GoError.external "scope lookup failed")) ∧
    (resourceVariableCreate (sampleExternals scopeEnv1)
        (projectClient (duplicatePorts scopeBroken) brokenEnvironmentMatcher) portData).d.Id
      = "Variables-3" ∧
    (resourceVariableCreate (sampleExternals scopeEnv1)
        (projectClient (duplicatePorts scopeBroken) brokenEnvironmentMatcher) portData).trace
      = [Event.mutexLock,
         Event.VariablesAddSingle "Projects-1"
           (buildVariableResource (sampleExternals scopeEnv1) portData),
         Event.VariablesMatchesScope scopeBroken scopeEnv1,
         Event.mutexUnlock] := by
  obtain ⟨h1, h2, h3⟩ := create_aborts_on_matcher_error (sampleExternals scopeEnv1)
    (projectClient (duplicatePorts scopeBroken) brokenEnvironmentMatcher) portData
    { Variables := duplicatePorts scopeBroken } [] (portRecord "Variables-1" scopeBroken)
    [portRecord "Variables-2" scopeEnv1, portRecord "Variables-3" scopeEnv1]
    (GoError.external "scope lookup failed") (by decide) rfl rfl
    (fun _ hv => absurd hv (List.not_mem_nil _)) (by decide) (by decide)
  refine ⟨h1, ?_, ?_⟩
  · rw [h2]; rfl
  · rw [h3]; rfl

/-- C15. The two copies of the reconciliation loop agree when the scope
matcher is error-free: for every candidate, project identifier, resource data
and returned collection, the loop of `resourceVariableCreate` and the loop of
`resourceVariableUpdate` give the same outcome, that is the same identifier
set, or the same cleared identifier with the same failure message, after the
same matcher calls. -/
theorem reconciliation_loops_agree (m : Client) (d : ResourceData) (projID : String)
    (c : Variable) (l : List Variable)
    (h : ∀ a b, (m.Variables.MatchesScope a b).2 = none) :
    resourceVariableCreate_loop m d projID c l = resourceVariableUpdate_loop m d projID c l ∧
    (resourceVariableCreate_loop m d projID c l).d.Id
      = (resourceVariableUpdate_loop m d projID c l).d.Id ∧
    (resourceVariableCreate_loop m d projID c l).diags
      = (resourceVariableUpdate_loop m d projID c l).diags := by
  have := loops_agree m d projID c l h
  exact ⟨this, by rw [this], by rw [this]⟩

/-- Witness of C15: the `Port` candidate against the duplicates, with the
spec's matcher; both loops track `Variables-2`. -/
theorem reconciliation_loops_agree_witness :
    (resourceVariableCreate_loop (projectClient [] equivalentMatcher) portData "Projects-1"
        (portRecord "" scopeEnv1) (duplicatePorts scopeEnv2)).d.Id = "Variables-2" ∧
    (resourceVariableUpdate_loop (projectClient [] equivalentMatcher) portData "Projects-1"
        (portRecord "" scopeEnv1) (duplicatePorts scopeEnv2)).d.Id = "Variables-2" ∧
    (resourceVariableUpdate_loop (projectClient [] equivalentMatcher) portData "Projects-1"
        (portRecord "" scopeEnv1) [portRecord "Variables-1" scopeEnv2]).diags
      = some (Diagnostic.Errorf "unable to locate variable in project Projects-1") := by
  have h1 := reconciliation_loops_agree (projectClient [] equivalentMatcher) portData
    "Projects-1" (portRecord "" scopeEnv1) (duplicatePorts scopeEnv2) (fun _ _ => rfl)
  have h2 := reconciliation_loops_agree (projectClient [] equivalentMatcher) portData
    "Projects-1" (portRecord "" scopeEnv1) [portRecord "Variables-1" scopeEnv2] (fun _ _ => rfl)
  refine ⟨by decide, ?_, ?_⟩
  · rw [← h1.2.1]; decide
  · rw [← h2.2.2]; decide

/-- C16. Create in the lifecycle, trigger and Azure-account adapters persists
only a non-empty identifier: when the record is built and the remote Add
succeeds with the record `r`, the operation returns no diagnostics; if the
helper `isEmpty` answers `false` for `r.ID` the tracked identifier becomes
exactly `r.ID` and nothing else changes, and if it answers `true` the resource
data is left as it was. Where `isEmpty` answers `true` for the empty string
only, this reads: a non-empty `r.ID` is tracked, an empty one changes nothing. -/
theorem create_persists_nonempty_identifier (x : Externals) (m : Client) (d : ResourceData) :
    (∀ l r, buildLifecycleResource x d = Except.ok l → m.Lifecycles.Add l = Except.ok r →
      (resourceLifecycleCreate x m d).diags = none ∧
      (x.isEmpty r.ID = false → (resourceLifecycleCreate x m d).d = d.SetId r.ID) ∧
      (x.isEmpty r.ID = true → (resourceLifecycleCreate x m d).d = d) ∧
      ((∀ s, x.isEmpty s = true ↔ s = "") →
        (r.ID ≠ "" → (resourceLifecycleCreate x m d).d.Id = r.ID) ∧
        (r.ID = "" → (resourceLifecycleCreate x m d).d.Id = d.Id))) ∧
    (∀ t r, buildProjectDeploymentTargetTriggerResource x d = Except.ok t →
      m.ProjectTriggers.Add t = Except.ok r →
      (resourceProjectDeploymentTargetTriggerCreate x m d).diags = none ∧
      (x.isEmpty r.ID = false →
        (resourceProjectDeploymentTargetTriggerCreate x m d).d = d.SetId r.ID) ∧
      (x.isEmpty r.ID = true → (resourceProjectDeploymentTargetTriggerCreate x m d).d = d) ∧
      ((∀ s, x.isEmpty s = true ↔ s = "") →
        (r.ID ≠ "" → (resourceProjectDeploymentTargetTriggerCreate x m d).d.Id = r.ID) ∧
        (r.ID = "" → (resourceProjectDeploymentTargetTriggerCreate x m d).d.Id = d.Id))) ∧
    (∀ a r, buildAzureServicePrincipalResource x d = Except.ok a →
      m.Accounts.Add a = Except.ok r →
      (resourceAzureServicePrincipalCreate x m d).diags = none ∧
      (x.isEmpty r.ID = false → (resourceAzureServicePrincipalCreate x m d).d = d.SetId r.ID) ∧
      (x.isEmpty r.ID = true → (resourceAzureServicePrincipalCreate x m d).d = d) ∧
      ((∀ s, x.isEmpty s = true ↔ s = "") →
        (r.ID ≠ "" → (resourceAzureServicePrincipalCreate x m d).d.Id = r.ID) ∧
        (r.ID = "" → (resourceAzureServicePrincipalCreate x m d).d.Id = d.Id))) := by
  have key : ∀ (ev : Event) (o : Outcome) (id : String),
      o = Outcome.after ev
          (if x.isEmpty id = true then { d := d, diags := none, trace := [] }
            else { d := d.SetId id, diags := none, trace := [] }) →
      o.diags = none ∧ (x.isEmpty id = false → o.d = d.SetId id) ∧
        (x.isEmpty id = true → o.d = d) ∧
        ((∀ s, x.isEmpty s = true ↔ s = "") →
          (id ≠ "" → o.d.Id = id) ∧ (id = "" → o.d.Id = d.Id)) := by
    intro ev o id ho
    subst ho
    by_cases he : x.isEmpty id = true
    · rw [if_pos he]
      refine ⟨rfl, fun h => ?_, fun _ => rfl, fun hlit => ⟨fun hne => ?_, fun _ => rfl⟩⟩
      · rw [he] at h; cases h
      · exact absurd ((hlit id).mp he) hne
    · rw [if_neg he]
      refine ⟨rfl, fun _ => rfl, fun h => absurd h he, fun hlit => ⟨fun _ => rfl, fun hid => ?_⟩⟩
      exact absurd ((hlit id).mpr hid) he
  refine ⟨fun l r hb ha => ?_, fun t r hb ha => ?_, fun a r hb ha => ?_⟩
  · exact key (Event.LifecyclesAdd l) (resourceLifecycleCreate x m d) r.ID (by
      simp only [resourceLifecycleCreate, hb, ha])
  · exact key (Event.ProjectTriggersAdd t) (resourceProjectDeploymentTargetTriggerCreate x m d)
      r.ID (by simp only [resourceProjectDeploymentTargetTriggerCreate, hb, ha])
  · exact key (Event.AccountsAdd a) (resourceAzureServicePrincipalCreate x m d) r.ID (by
      simp only [resourceAzureServicePrincipalCreate, hb, ha])

/-- Witness of C16: the lifecycle, trigger and account named `Default`,
tracked as `Resources-1`, created on a server that answers with the
identifier `Lifecycles-9` and on one that answers with the empty identifier. -/
theorem create_persists_nonempty_identifier_witness :
    (resourceLifecycleCreate (sampleExternals {}) (acceptingClient "Lifecycles-9")
        namedData).d.Id = "Lifecycles-9" ∧
    (resourceLifecycleCreate (sampleExternals {}) (acceptingClient "") namedData).d.Id
      = "Resources-1" ∧
    (resourceLifecycleCreate (sampleExternals {}) (acceptingClient "") namedData).diags = none ∧
    (resourceProjectDeploymentTargetTriggerCreate (sampleExternals {})
        (acceptingClient "ProjectTriggers-9") namedData).d.Id = "ProjectTriggers-9" ∧
    (resourceAzureServicePrincipalCreate (sampleExternals {}) (acceptingClient "")
        namedData).d.Id = "Resources-1" := by
  have hlit : ∀ s, (sampleExternals {}).isEmpty s = true ↔ s = "" := fun s => by
    simp [sampleExternals]
  have h9 := create_persists_nonempty_identifier (sampleExternals {})
    (acceptingClient "Lifecycles-9") namedData
  have hp := create_persists_nonempty_identifier (sampleExternals {})
    (acceptingClient "ProjectTriggers-9") namedData
  have h0 := create_persists_nonempty_identifier (sampleExternals {}) (acceptingClient "")
    namedData
  refine ⟨?_, ?_, ?_, ?_, ?_⟩
  · exact ((h9.1 _ _ rfl rfl).2.2.2 hlit).1 (by decide)
  · exact ((h0.1 _ _ rfl rfl).2.2.2 hlit).2 rfl
  · exact (h0.1 _ _ rfl rfl).1
  · exact ((hp.2.1 _ _ rfl rfl).2.2.2 hlit).1 (by decide)
  · exact ((h0.2.2 _ _ rfl rfl).2.2.2 hlit).2 rfl

/-- C17. `getRetentionPeriod` yields a retention period only for exactly one
declared block, with a 32-bit quantity: it returns a record if and only if the
attribute is set and its block set has exactly one element; for the one block
`item` the record's `Unit` is the declared unit and its `QuantityToKeep` is
the declared integer converted by `int32`. That conversion lands in the signed
32-bit range, differs from its argument by a multiple of `2^32`, and is the
identity on the signed 32-bit range; `buildPhaseResource` applies it to
`minimum_environments_before_promotion`. -/
theorem getRetentionPeriod_iff (d : ResourceData) (key : Key) :
    (getRetentionPeriod d key ≠ none ↔
      (d.GetOk key).2 = true ∧ (d.GetOk key).1.asBlocks.length = 1) ∧
    (∀ item, d.Get key = Value.blocks [item] →
      getRetentionPeriod d key = some
        { Unit := (mapIndex item Key.constUnit).asString,
          QuantityToKeep := toInt32 (mapIndex item Key.constQuantityToKeep).asInt }) ∧
    (∀ q : Int, -2 ^ 31 ≤ toInt32 q ∧ toInt32 q < 2 ^ 31 ∧
      toInt32 q % 2 ^ 32 = q % 2 ^ 32 ∧ (-2 ^ 31 ≤ q → q < 2 ^ 31 → toInt32 q = q)) ∧
    (∀ (x : Externals) (tfPhase : List (Key × Value)),
      (buildPhaseResource x tfPhase).MinimumEnvironmentsBeforePromotion
        = toInt32 (mapIndex tfPhase Key.constMinimumEnvironmentsBeforePromotion).asInt) := by
  refine ⟨?_, ?_, ?_, ?_⟩
  · unfold getRetentionPeriod
    by_cases hok : (d.GetOk key).2 = true
    · simp only [hok, if_true, true_and]
      cases hb : (d.GetOk key).1.asBlocks with
      | nil => simp
      | cons item rest =>
        cases rest with
        | nil => simp
        | cons item2 rest2 => simp
    · simp [hok]
  · intro item hitem
    have hattr : d.attrs key = Value.blocks [item] := hitem
    simp [getRetentionPeriod, ResourceData.GetOk, hattr, Value.isZero, Value.asBlocks]
  · intro q
    unfold toInt32
    refine ⟨by omega, by omega, by omega, fun h1 h2 => by omega⟩
  · intro x tfPhase
    unfold buildPhaseResource
    simp only
    split <;> split <;> rfl

/-- Witness of C17: a release retention block of 30 days is read as such; the
tentacle retention attribute, not set, gives no record; `2^31` converts to
`-2^31` and `2^32 + 5` to `5`. -/
theorem getRetentionPeriod_iff_witness :
    getRetentionPeriod retentionData Key.constReleaseRetentionPolicy
      = some { Unit := "Days", QuantityToKeep := 30 } ∧
    getRetentionPeriod retentionData Key.constTentacleRetentionPolicy = none ∧
    toInt32 30 = 30 ∧ toInt32 (2 ^ 31) = -2 ^ 31 ∧ toInt32 (2 ^ 32 + 5) = 5 := by
  have h := getRetentionPeriod_iff retentionData Key.constReleaseRetentionPolicy
  have ht := getRetentionPeriod_iff retentionData Key.constTentacleRetentionPolicy
  refine ⟨?_, ?_, (h.2.2.1 30).2.2.2 (by decide) (by decide), by decide, by decide⟩
  · rw [h.2.1 _ rfl]
    decide
  · by_contra hne
    exact absurd (ht.1.mp hne).1 (by decide)

/-- C18. `buildPhaseResource` never produces a nil target list: whatever the
slice helper returns for `automatic_deployment_targets` and
`optional_deployment_targets`, the phase's two target lists are not nil, equal
to the helper's result when that is not nil and to the empty list otherwise;
`Name` and `IsOptionalPhase` are the map's entries and
`MinimumEnvironmentsBeforePromotion` is the map's entry converted by `int32`. -/
theorem buildPhaseResource_targets_not_nil (x : Externals) (tfPhase : List (Key × Value)) :
    (buildPhaseResource x tfPhase).AutomaticDeploymentTargets
      = some ((x.getSliceFromTerraformTypeList
          (mapIndex tfPhase Key.constAutomaticDeploymentTargets)).getD []) ∧
    (buildPhaseResource x tfPhase).OptionalDeploymentTargets
      = some ((x.getSliceFromTerraformTypeList
          (mapIndex tfPhase Key.constOptionalDeploymentTargets)).getD []) ∧
    (buildPhaseResource x tfPhase).AutomaticDeploymentTargets ≠ none ∧
    (buildPhaseResource x tfPhase).OptionalDeploymentTargets ≠ none ∧
    (buildPhaseResource x tfPhase).Name = (mapIndex tfPhase Key.constName).asString ∧
    (buildPhaseResource x tfPhase).MinimumEnvironmentsBeforePromotion
      = toInt32 (mapIndex tfPhase Key.constMinimumEnvironmentsBeforePromotion).asInt ∧
    (buildPhaseResource x tfPhase).IsOptionalPhase
      = (mapIndex tfPhase Key.constIsOptionalPhase).asBool := by
  unfold buildPhaseResource
  cases ha : x.getSliceFromTerraformTypeList
      (mapIndex tfPhase Key.constAutomaticDeploymentTargets) <;>
    cases ho : x.getSliceFromTerraformTypeList
      (mapIndex tfPhase Key.constOptionalDeploymentTargets) <;>
    simp

end OctopusDeploy
